import Mathlib

/-!
Verification of the reference-table ("slab"/"stack") protocol and of the
generator-side bookkeeping of `crates/cli-support/src/js/mod.rs`.

The Rust file is a code generator: it emits JavaScript glue as string
templates.  The slab protocol below is a shallow embedding of the emitted
JavaScript functions (`addHeapObject`, `dropRef`, `getObject`,
`__wbindgen_object_clone_ref`, `addBorrowedObject`), read off the template
strings in `expose_add_heap_object`, `expose_drop_ref`, `expose_get_object`,
`finalize` and `expose_borrowed_objects`.  The generator-side definitions
(`require_internal_export`, `import_name`, `generate_identifier`, the
duplicate-constructor check of `generate_export_for_class`, and the emitted
`free()` method of `write_class`) are embedded directly from the Rust code.

Modelling conventions:
* JavaScript numbers that the protocol stores in slab cells are naturals
  (they are only ever array indices); a refcount is `Option Nat`, where
  `none` models a cell whose `cnt` field is absent or not a number (the four
  seeded constant cells are emitted as objects without a `cnt` field, and
  arithmetic on such a field yields NaN, which stays a non-number).
* Reading past the end of an array yields `undefined` in JavaScript; the
  model uses a `Cell.num 0` default via `cellAt`.  All theorems below only
  ever evaluate the operations on states where this default is not reached.
* `x >> 1` on a non-negative JavaScript number is `x / 2`, and `x << 1`
  is `x * 2`; `(x & 1) === 1` is `x % 2 = 1`.
-/

/-- A JavaScript value, as far as the slab protocol can observe it. -/
inductive JsValue where
  | undef
  | null
  | boolean (b : Bool)
  | num (n : Int)
  | str (s : String)
  | objId (n : Nat)
  deriving DecidableEq, Repr

/-- One slot of the emitted `slab` array: either a JavaScript number (a
free-list link, as written by `dropRef`/`addHeapObject`) or an object
`\x7b obj, cnt \x7d` (`cnt` is `none` for the seeded constant cells, which are
emitted without a `cnt` field). -/
inductive Cell where
  | num (n : Nat)
  | obj (value : JsValue) (cnt : Option Nat)
  deriving DecidableEq, Repr

/-- `INITIAL_SLAB_VALUES` from mod.rs: the seeded constant cells. -/
def INITIAL_SLAB_VALUES : List JsValue :=
  [JsValue.undef, JsValue.null, JsValue.boolean true, JsValue.boolean false]

/-- The mutable globals of the emitted slab: `const slab = [...]` and
`let slab_next = slab.length`. -/
structure SlabState where
  slab : List Cell
  slab_next : Nat
  deriving DecidableEq, Repr

/-- The state set up by `expose_global_slab` / `expose_global_slab_next`:
`const slab = [\x7bobj: undefined\x7d, \x7bobj: null\x7d, \x7bobj: true\x7d, \x7bobj: false\x7d];`
`let slab_next = slab.length;` -/
def initSlabState : SlabState :=
  { slab := INITIAL_SLAB_VALUES.map (fun v => Cell.obj v none)
    slab_next := (INITIAL_SLAB_VALUES.map (fun v => Cell.obj v none)).length }

/-- `slab[i]` (JavaScript array read; out-of-range reads are `undefined` and
are modelled by the unused default). -/
def cellAt (slab : List Cell) (i : Nat) : Cell :=
  (slab[i]?).getD (Cell.num 0)

/-- The emitted `addHeapObject` (from `expose_add_heap_object`):
```
function addHeapObject(obj) \x7b
    if (slab_next === slab.length) slab.push(slab.length + 1);
    const idx = slab_next;
    const next = slab[idx];
    slab_next = next;               // debug builds first assert next is a number
    slab[idx] = \x7b obj, cnt: 1 \x7d;
    return idx << 1;
\x7d
```
On well-formed states `next` is always a number; a non-number (which makes a
debug build throw "corrupt slab") is modelled by leaving `slab_next`
unchanged, a branch no theorem below ever reaches. -/
def addHeapObject (v : JsValue) (s : SlabState) : Nat × SlabState :=
  let slab := if s.slab_next = s.slab.length
              then s.slab ++ [Cell.num (s.slab.length + 1)]
              else s.slab
  let idx := s.slab_next
  let next := cellAt slab idx
  let slab_next := match next with
    | Cell.num n => n
    | Cell.obj _ _ => s.slab_next
  (idx * 2, { slab := slab.set idx (Cell.obj v (some 1)), slab_next := slab_next })

/-- The emitted `dropRef`, release mode (from `expose_drop_ref`):
```
function dropRef(idx) \x7b
    idx = idx >> 1;
    if (idx < 4) return;
    let obj = slab[idx];
    obj.cnt -= 1;
    if (obj.cnt > 0) return;
    slab[idx] = slab_next;
    slab_next = idx;
\x7d
```
A missing `cnt` gives NaN (`none`), which is not `> 0`, so the cell is freed;
a numeric slot has no `cnt` property (the write on a primitive is silently
dropped), `undefined > 0` is false, and the slot is freed again. -/
def dropRef (handle : Nat) (s : SlabState) : SlabState :=
  let idx := handle / 2
  if idx < INITIAL_SLAB_VALUES.length then s
  else
    match cellAt s.slab idx with
    | Cell.obj v cnt =>
      let cnt := cnt.map (fun c => c - 1)
      if cnt.getD 0 > 0 then { s with slab := s.slab.set idx (Cell.obj v cnt) }
      else { slab := s.slab.set idx (Cell.num s.slab_next), slab_next := idx }
    | Cell.num _ => { slab := s.slab.set idx (Cell.num s.slab_next), slab_next := idx }

/-- The emitted `dropRef`, debug mode (`config.debug = true` adds the
stack-handle check and the corrupt-slab check). -/
def dropRefDebug (handle : Nat) (s : SlabState) : Except String SlabState :=
  if handle % 2 = 1 then Except.error "cannot drop ref of stack objects"
  else
    let idx := handle / 2
    if idx < INITIAL_SLAB_VALUES.length then Except.ok s
    else
      match cellAt s.slab idx with
      | Cell.num _ => Except.error "corrupt slab"
      | Cell.obj v cnt =>
        let cnt := cnt.map (fun c => c - 1)
        if cnt.getD 0 > 0 then Except.ok { s with slab := s.slab.set idx (Cell.obj v cnt) }
        else Except.ok { slab := s.slab.set idx (Cell.num s.slab_next), slab_next := idx }

/-- The emitted `getObject` (from `expose_get_object`):
```
function getObject(idx) \x7b
    if ((idx & 1) === 1) \x7b
        return stack[idx >> 1];
    \x7d else \x7b
        const val = slab[idx >> 1];
        return val.obj;
    \x7d
\x7d
```
`none` stands for the `undefined` results (missing stack slot, or `val.obj`
on a numeric slot). -/
def getObject (stack : List JsValue) (s : SlabState) (idx : Nat) : Option JsValue :=
  if idx % 2 = 1 then stack[idx / 2]?
  else
    match cellAt s.slab (idx / 2) with
    | Cell.obj v _ => some v
    | Cell.num _ => none

/-- The body bound to `__wbindgen_object_clone_ref` in `finalize`, release
mode:
```
function(idx) \x7b
    if ((idx & 1) === 1) return addHeapObject(getObject(idx));
    const val = slab[idx >> 1];
    val.cnt += 1;
    return idx;
\x7d
```
`stack[idx >> 1]` past the end is `undefined`; bumping `cnt` on a numeric
slot is a silent no-op on the primitive (debug builds throw "corrupt slab"). -/
def cloneRef (stack : List JsValue) (idx : Nat) (s : SlabState) : Nat × SlabState :=
  if idx % 2 = 1 then addHeapObject (stack.getD (idx / 2) JsValue.undef) s
  else
    match cellAt s.slab (idx / 2) with
    | Cell.obj v cnt =>
      (idx, { s with slab := s.slab.set (idx / 2) (Cell.obj v (cnt.map (fun c => c + 1))) })
    | Cell.num _ => (idx, s)

/-- One slab operation of a generated-glue execution trace. -/
inductive SlabOp where
  | add (v : JsValue)
  | drop (h : Nat)
  | clone (h : Nat)
  deriving DecidableEq, Repr

/-- Whether the cell at index `i` is live (an object with refcount `> 0`). -/
def liveIdx (s : SlabState) (i : Nat) : Bool :=
  match cellAt s.slab i with
  | Cell.obj _ (some c) => 0 < c
  | _ => false

/-- Whether the cell is an occupied (object) cell at all. -/
def cellIsObj : Cell → Bool
  | Cell.obj _ _ => true
  | Cell.num _ => false

/-- Effect of one operation on the slab (the stack is only read, never
modified, by these three operations). -/
def stepOp (stack : List JsValue) (s : SlabState) : SlabOp → SlabState
  | SlabOp.add v => (addHeapObject v s).2
  | SlabOp.drop h => dropRef h s
  | SlabOp.clone h => (cloneRef stack h s).2

/-- Run a list of operations in order. -/
def runOps (stack : List JsValue) (s : SlabState) : List SlabOp → SlabState
  | [] => s
  | op :: rest => runOps stack (stepOp stack s op) rest

/-- Validity of one operation: the protocol's contract, under which the
generated glue calls these functions.  `drop` is only called on owned (even)
handles that are seeded or currently live; `clone` on a stack handle or on an
occupied slab cell. -/
def validOp (s : SlabState) : SlabOp → Bool
  | SlabOp.add _ => true
  | SlabOp.drop h =>
      h % 2 == 0 && (decide (h / 2 < INITIAL_SLAB_VALUES.length) || liveIdx s (h / 2))
  | SlabOp.clone h => h % 2 == 1 || cellIsObj (cellAt s.slab (h / 2))

/-- Validity of a whole trace, each operation judged in the state it runs in. -/
def validTrace (stack : List JsValue) (s : SlabState) : List SlabOp → Bool
  | [] => true
  | op :: rest => validOp s op && validTrace stack (stepOp stack s op) rest

/-! ### The free-list invariant of the emitted slab -/

/-- The free list threaded through vacated slab cells: starting from `n`,
each listed index holds a numeric link to the next, and the chain ends by
pointing one past the end of the slab (where `addHeapObject` grows it). -/
inductive FreeChain (slab : List Cell) : Nat → List Nat → Prop where
  | nil : FreeChain slab slab.length []
  | cons {i n : Nat} {l : List Nat} (hcell : slab[i]? = some (Cell.num n))
      (hrest : FreeChain slab n l) : FreeChain slab i (i :: l)

/-- The slab well-formedness invariant preserved by every valid operation:
there is a duplicate-free free list rooted at `slab_next`, entirely past the
four seeded cells; every in-range cell off the free list is an occupied
object cell; and the seeded cells still hold exactly their initial values
(objects without a `cnt` field). -/
def SlabInv (s : SlabState) : Prop :=
  ∃ fl : List Nat,
    FreeChain s.slab s.slab_next fl ∧
    fl.Nodup ∧
    (∀ i ∈ fl, INITIAL_SLAB_VALUES.length ≤ i) ∧
    (∀ i, i < s.slab.length → i ∉ fl → cellIsObj (cellAt s.slab i) = true) ∧
    (∀ (i : Nat) (v : JsValue),
      INITIAL_SLAB_VALUES[i]? = some v → s.slab[i]? = some (Cell.obj v none))

/-- Whether an operation targets the handle `h`. -/
def opTouches : SlabOp → Nat → Bool
  | SlabOp.add _, _ => false
  | SlabOp.drop h', h => h' == h
  | SlabOp.clone h', h => h' == h

/-- The slab handle `h` is live and currently dereferences to `v`. -/
def handleHolds (s : SlabState) (h : Nat) (v : JsValue) : Prop :=
  h % 2 = 0 ∧ ∃ c, cellAt s.slab (h / 2) = Cell.obj v (some c) ∧ 0 < c

/-! ### Generator-side state (the Rust code of mod.rs itself) -/

/-- Association-list lookup (the model of the generator's HashMap reads). -/
def alookup {κ α : Type} [DecidableEq κ] (k : κ) : List (κ × α) → Option α
  | [] => none
  | (k2, v) :: rest => if k = k2 then some v else alookup k rest

/-- The slices of `Context` that `require_internal_export` reads and writes:
the memo set `required_internal_exports` and the wasm module's export
section, as the list of its entry field names. -/
structure RequireState where
  required_internal_exports : List String
  module_exports : List String
  deriving DecidableEq, Repr

/-- The message `require_internal_export` bails with. -/
def requireErrorMsg (name : String) : String :=
  "the exported function `" ++ name ++ "` is required to generate bindings " ++
    "but it was not found in the wasm file, perhaps the `std` feature " ++
    "of the `wasm-bindgen` crate needs to be enabled?"

/-- `Context::require_internal_export`: return Ok at once when the name was
already required; otherwise record it and check the module's export section,
bailing when the export is absent.  (The Rust code inserts into the set
before checking the section; the set is discarded on the error path because
the whole run aborts, so the model returns the untouched state there.) -/
def require_internal_export (name : String) (st : RequireState) :
    Except String RequireState :=
  if name ∈ st.required_internal_exports then Except.ok st
  else
    let st2 := { st with required_internal_exports := name :: st.required_internal_exports }
    if name ∈ st.module_exports then Except.ok st2
    else Except.error (requireErrorMsg name)

/-- The import-bookkeeping slices of `Context`: `imported_names` (keyed by
origin module and imported identifier, flattened from the Rust nested map),
`imported_identifiers` (per-base-name use counter), and the emitted import
declarations, recorded as (module, imported identifier, local alias). -/
structure ImportCtx where
  imported_names : List ((Option String × String) × String)
  imported_identifiers : List (String × Nat)
  imports : List (Option String × String × String)
  deriving DecidableEq, Repr

/-- The empty context a generation run starts with. -/
def emptyImportCtx : ImportCtx := ⟨[], [], []⟩

/-- `generate_identifier` from mod.rs: bump the per-name counter and return
the name itself on first use, the name with the decimal counter appended
afterwards. -/
def generate_identifier (name : String) (used_names : List (String × Nat)) :
    String × List (String × Nat) :=
  let cnt := (alookup name used_names).getD 0 + 1
  (if cnt = 1 then name else name ++ Nat.repr cnt, (name, cnt) :: used_names)

/-- `SubContext::import_name`, in the ES-module configuration (`no_modules`
and `use_node_require` both false, so the `--no-modules` bail-out cannot
fire).  The identifier imported is the namespace when one is given, the item
otherwise; a cached (module, identifier) entry is reused verbatim, otherwise
a fresh alias is generated and, for a named origin module, exactly one new
declaration of an import is pushed.  With a namespace the returned text is
`alias.item`. -/
def import_name (module : Option String) (js_namespace : Option String)
    (item : String) (ctx : ImportCtx) : String × ImportCtx :=
  let name_to_import := js_namespace.getD item
  match alookup (module, name_to_import) ctx.imported_names with
  | some identifier =>
      (match js_namespace with
       | some _ => identifier ++ "." ++ item
       | none => identifier,
       ctx)
  | none =>
      let named := generate_identifier name_to_import ctx.imported_identifiers
      let imports2 := match module with
        | some m => ctx.imports ++ [(some m, name_to_import, named.1)]
        | none => ctx.imports
      (match js_namespace with
       | some _ => named.1 ++ "." ++ item
       | none => named.1,
       { imported_names := ((module, name_to_import), named.1) :: ctx.imported_names,
         imported_identifiers := named.2,
         imports := imports2 })

/-- Big-endian decimal digits of `n`: the list `Nat.toDigits 10 n` computes
(used to reason about the `Nat.repr` suffixes of generated aliases). -/
def digitsOf (n : Nat) : List Char :=
  if n < 10 then [Nat.digitChar n]
  else digitsOf (n / 10) ++ [Nat.digitChar (n % 10)]
termination_by n
decreasing_by
  exact Nat.div_lt_self (by omega) (by omega)

/-- Numeric value of a decimal digit character. -/
def digitVal (c : Char) : Nat := c.toNat - Char.toNat (Char.ofNat 48)

/-- Numeric value of a big-endian decimal digit list. -/
def valOf (ds : List Char) : Nat :=
  ds.foldl (fun acc c => 10 * acc + digitVal c) 0

/-- A JavaScript property descriptor as the accessor-import shims use it:
the optional `get`/`set` function slots (function values abstracted to
numeric identities, `none` = `undefined`). -/
structure PropDesc where
  get : Option Nat
  set : Option Nat
  deriving DecidableEq, Repr

/-- The emitted `GetOwnOrInheritedPropertyDescriptor(obj, id)` helper (from
`expose_get_inherited_descriptor`): walk the prototype chain — modelled as
the list of own-property tables — and throw the
descriptor-for-id-not-found error when the chain is exhausted. -/
def getOwnOrInheritedPropertyDescriptor :
    List (List (String × PropDesc)) → String → Except String PropDesc
  | [], id => Except.error ("descriptor for id=\x27" ++ id ++ "\x27 not found")
  | own :: proto, id =>
    match alookup id own with
    | some desc => Except.ok desc
    | none => getOwnOrInheritedPropertyDescriptor proto id

/-- The value the emitted `<target-expression> || function() { throw new
Error(...) }` fallback of `generated_import_target` evaluates to: either the
real resolved function or the throwing fallback closure. -/
inductive ImportTarget where
  | real (f : Nat)
  | throwMissing (name : String)
  deriving DecidableEq, Repr

/-- JavaScript `x || fallback` on a possibly-undefined function value. -/
def orMissingFallback (x : Option Nat) (name : String) : ImportTarget :=
  match x with
  | some f => ImportTarget.real f
  | none => ImportTarget.throwMissing name

/-- Invoking the stored target at call time: the fallback raises the
`wasm-bindgen: <target> does not exist` error, a real function returns its
(abstracted) result — never an undefined handle. -/
def invokeTarget : ImportTarget → Except String Nat
  | ImportTarget.real f => Except.ok f
  | ImportTarget.throwMissing name =>
      Except.error ("wasm-bindgen: " ++ name ++ " does not exist")

/-- Load-time evaluation of the emitted line
`const <shim>_target = GetOwnOrInheritedPropertyDescriptor(C.prototype, g).get || fallback;`
for a nominal INSTANCE getter binding (`op.is_static` false, so `location`
is `.prototype` and `binding` is empty; setters are identical with `.set`).
The static variant appends `.bind(C)` and is `loadNominalGetterStatic`. -/
def loadNominalGetter (chain : List (List (String × PropDesc))) (g : String)
    (targetName : String) : Except String ImportTarget :=
  match getOwnOrInheritedPropertyDescriptor chain g with
  | Except.ok d => Except.ok (orMissingFallback d.get targetName)
  | Except.error e => Except.error e

/-- Load-time evaluation of the matching instance setter line (the static
variant is `loadNominalSetterStatic`). -/
def loadNominalSetter (chain : List (List (String × PropDesc))) (st : String)
    (targetName : String) : Except String ImportTarget :=
  match getOwnOrInheritedPropertyDescriptor chain st with
  | Except.ok d => Except.ok (orMissingFallback d.set targetName)
  | Except.error e => Except.error e

/-- A plain JavaScript property read (`C.prototype.name`, or `C.name` for a
static binding), which natively walks the prototype chain; `none` is
`undefined`. -/
def readProp : List (List (String × Nat)) → String → Option Nat
  | [], _ => none
  | own :: proto, name =>
    match alookup name own with
    | some f => some f
    | none => readProp proto name

/-- Load-time evaluation of the emitted line
`const <shim>_target = C.prototype.<name> || fallback;` for a regular
nominal INSTANCE method binding (`op.is_static` false): it never raises at
load; an unresolved target becomes the throwing fallback.  The static
variant appends `.bind(C)` and is `loadNominalMethodStatic`. -/
def loadNominalMethod (chain : List (List (String × Nat))) (name : String)
    (targetName : String) : ImportTarget :=
  orMissingFallback (readProp chain name) targetName

/-- The load-time TypeError JavaScript raises for `undefined.bind(...)`:
member access on `undefined` faults before the call. -/
def bindTypeError : String :=
  "TypeError: cannot read properties of undefined (reading bind)"

/-- JavaScript `x.bind(C) || fallback` on a possibly-undefined function
value, as emitted for static bindings (`op.is_static` true, so `binding` is
`.bind(class)`): reading `.bind` off `undefined` raises a TypeError at load
time, before the `||` can supply the fallback; a bound function is always
truthy, so on the success path the fallback is dead code. -/
def bindOrFallback (x : Option Nat) (name : String) : Except String ImportTarget :=
  match x with
  | some f => Except.ok (orMissingFallback (some f) name)
  | none => Except.error bindTypeError

/-- Load-time evaluation of the emitted line
`const <shim>_target = C.<name>.bind(C) || fallback;` for a regular nominal
STATIC method binding: a resolved target is bound; an unresolved one makes
the load fault with a TypeError — the shim target is never created. -/
def loadNominalMethodStatic (chain : List (List (String × Nat))) (name : String)
    (targetName : String) : Except String ImportTarget :=
  bindOrFallback (readProp chain name) targetName

/-- Load-time evaluation of the emitted STATIC getter line
`const <shim>_target = GetOwnOrInheritedPropertyDescriptor(C, g).get.bind(C) || fallback;`:
an absent descriptor still raises the descriptor-not-found error, and a
descriptor without a getter faults with a TypeError at load when `.bind` is
read off `undefined`. -/
def loadNominalGetterStatic (chain : List (List (String × PropDesc))) (g : String)
    (targetName : String) : Except String ImportTarget :=
  match getOwnOrInheritedPropertyDescriptor chain g with
  | Except.ok d => bindOrFallback d.get targetName
  | Except.error e => Except.error e

/-- Load-time evaluation of the matching static setter line. -/
def loadNominalSetterStatic (chain : List (List (String × PropDesc))) (st : String)
    (targetName : String) : Except String ImportTarget :=
  match getOwnOrInheritedPropertyDescriptor chain st with
  | Except.ok d => bindOrFallback d.set targetName
  | Except.error e => Except.error e

/-- One class export fed to `generate_export_for_class` (with a decodable
descriptor; exports whose descriptor is gone are skipped by the Rust code
before this bookkeeping runs). -/
structure ClassExport where
  class_name : String
  fn_name : String
  is_constructor : Bool
  deriving DecidableEq, Repr

/-- The `has_constructor` bookkeeping of `generate_export_for_class`: the
per-class-name flag map, with the duplicate-constructor bail-out whose
message carries the constructor function name. -/
def registerClassExport (classes : List (String × Bool)) (e : ClassExport) :
    Except String (List (String × Bool)) :=
  let has := (alookup e.class_name classes).getD false
  if e.is_constructor then
    if has then Except.error ("found duplicate constructor `" ++ e.fn_name ++ "`")
    else Except.ok ((e.class_name, true) :: classes)
  else Except.ok ((e.class_name, has) :: classes)

/-- Processing a run's class exports in order; the first error aborts the
run, producing no output. -/
def runClassExports (classes : List (String × Bool)) :
    List ClassExport → Except String (List (String × Bool))
  | [] => Except.ok classes
  | e :: rest =>
    match registerClassExport classes e with
    | Except.ok c => runClassExports c rest
    | Except.error m => Except.error m

/-- Number of constructor exports for class `cls` in an export list. -/
def countCtors (cls : String) (l : List ClassExport) : Nat :=
  (l.filter (fun e => e.class_name == cls && e.is_constructor)).length

/-- The world the emitted `free<Name>` helper acts on: the `CLEANUPS_MAP`
registrations (ptr, weak-ref id) and the argument log of the wasm destructor
export `wasm.__wbg_<name>_free`. -/
structure FreeWorld where
  cleanups : List (Nat × Nat)
  destructor_args : List Nat
  deriving DecidableEq, Repr

/-- `Map.delete(ptr)` on the cleanup registrations. -/
def removeKey (k : Nat) (l : List (Nat × Nat)) : List (Nat × Nat) :=
  l.filter (fun p => p.1 != k)

/-- The emitted `function free<Name>(ptr) { <freeref> wasm.<free_fn>(ptr); }`
helper of `write_class`.  With `weak_refs` configured, `<freeref>` is
`CLEANUPS_MAP.get(ptr).drop(); CLEANUPS_MAP.delete(ptr);`, which throws a
TypeError when `ptr` has no registration (`Map.get` yields `undefined`). -/
def freeClassPtr (weak_refs : Bool) (ptr : Nat) (w : FreeWorld) :
    Except String FreeWorld :=
  if weak_refs then
    match alookup ptr w.cleanups with
    | none =>
        Except.error "TypeError: CLEANUPS_MAP.get(ptr) is undefined"
    | some _ =>
        Except.ok { cleanups := removeKey ptr w.cleanups,
                    destructor_args := w.destructor_args ++ [ptr] }
  else Except.ok { w with destructor_args := w.destructor_args ++ [ptr] }

/-- The emitted `free()` method of every exported class:
```
free() {
    const ptr = this.ptr;
    this.ptr = 0;
    free<Name>(ptr);
}
```
The result carries the new value of the instance's `ptr` field. -/
def classFree (weak_refs : Bool) (instPtr : Nat) (w : FreeWorld) :
    Except String (Nat × FreeWorld) :=
  let ptr := instPtr
  let newInstPtr := 0
  match freeClassPtr weak_refs ptr w with
  | Except.ok w2 => Except.ok (newInstPtr, w2)
  | Except.error e => Except.error e

theorem FreeChain.mem_num {slab : List Cell} {n : Nat} {l : List Nat}
    (h : FreeChain slab n l) : ∀ i ∈ l, ∃ m, slab[i]? = some (Cell.num m) := by
  induction h with
  | nil => intro i hi; cases hi
  | cons hcell _ ih =>
    intro j hj
    rcases List.mem_cons.mp hj with rfl | hj
    · exact ⟨_, hcell⟩
    · exact ih j hj

theorem FreeChain.mem_lt {slab : List Cell} {n : Nat} {l : List Nat}
    (h : FreeChain slab n l) : ∀ i ∈ l, i < slab.length := by
  intro i hi
  obtain ⟨m, hm⟩ := h.mem_num i hi
  exact (List.getElem?_eq_some.mp hm).1

theorem FreeChain.set_outside {slab : List Cell} {n : Nat} {l : List Nat}
    (h : FreeChain slab n l) {k : Nat} {c : Cell} (hk : k ∉ l) :
    FreeChain (slab.set k c) n l := by
  induction h with
  | nil =>
    have h0 : FreeChain (slab.set k c) ((slab.set k c).length) [] := FreeChain.nil
    rwa [List.length_set] at h0
  | cons hcell _ ih =>
    rename_i i m l' _
    have hik : i ≠ k := fun h => hk (h ▸ List.mem_cons_self i l')
    have hkl : k ∉ l' := fun h => hk (List.mem_cons_of_mem _ h)
    exact FreeChain.cons (by rw [List.getElem?_set_ne (Ne.symm hik)]; exact hcell) (ih hkl)

theorem FreeChain.eq_nil {slab : List Cell} {l : List Nat}
    (h : FreeChain slab slab.length l) : l = [] := by
  cases h with
  | nil => rfl
  | cons hcell _ =>
    have := (List.getElem?_eq_some.mp hcell).1
    omega

theorem FreeChain.nil_inv {slab : List Cell} {n : Nat}
    (h : FreeChain slab n []) : n = slab.length := by
  cases h
  rfl

theorem FreeChain.cons_inv {slab : List Cell} {n i : Nat} {l : List Nat}
    (h : FreeChain slab n (i :: l)) :
    n = i ∧ ∃ m, slab[i]? = some (Cell.num m) ∧ FreeChain slab m l := by
  cases h with
  | cons hcell hrest => exact ⟨rfl, _, hcell, hrest⟩

theorem slabInv_init : SlabInv initSlabState := by
  refine ⟨[], FreeChain.nil, List.nodup_nil, by simp, ?_, ?_⟩
  · intro i hi _
    have h4 : i < 4 := by simpa [initSlabState, INITIAL_SLAB_VALUES] using hi
    interval_cases i <;> decide
  · intro i v hv
    have h4 : i < 4 := by
      have := (List.getElem?_eq_some.mp hv).1
      simpa [INITIAL_SLAB_VALUES] using this
    interval_cases i <;>
      simp_all [initSlabState, INITIAL_SLAB_VALUES]

theorem cellAt_of_getElem? {slab : List Cell} {i : Nat} {c : Cell}
    (h : slab[i]? = some c) : cellAt slab i = c := by
  simp [cellAt, h]

theorem getElem?_of_cellAt_obj {slab : List Cell} {i : Nat} {v : JsValue}
    {cnt : Option Nat} (h : cellAt slab i = Cell.obj v cnt) :
    slab[i]? = some (Cell.obj v cnt) := by
  unfold cellAt at h
  cases hg : slab[i]? with
  | none => rw [hg] at h; simp at h
  | some c => rw [hg] at h; simp at h; rw [h]

theorem lt_of_cellAt_obj {slab : List Cell} {i : Nat} {v : JsValue}
    {cnt : Option Nat} (h : cellAt slab i = Cell.obj v cnt) : i < slab.length :=
  (List.getElem?_eq_some.mp (getElem?_of_cellAt_obj h)).1

/-- Seeded slabs are at least four cells long. -/
theorem slabInv_length {s : SlabState} (hinv : SlabInv s) :
    INITIAL_SLAB_VALUES.length ≤ s.slab.length := by
  obtain ⟨fl, _, _, _, _, hseed⟩ := hinv
  have h3 := hseed 3 (JsValue.boolean false) (by decide)
  have := (List.getElem?_eq_some.mp h3).1
  simpa [INITIAL_SLAB_VALUES] using Nat.succ_le_of_lt this

/-- Everything `addHeapObject` does on a well-formed state: it preserves the
invariant, allocates the cell `slab_next`, which was not live before and is
live (with refcount 1 and the stored value) afterwards, returns the even
handle `slab_next * 2` with `slab_next ≥ 4`, and leaves every other cell
untouched. -/
theorem addHeapObject_props (v : JsValue) (s : SlabState) (hinv : SlabInv s) :
    SlabInv (addHeapObject v s).2 ∧
    liveIdx s ((addHeapObject v s).1 / 2) = false ∧
    (addHeapObject v s).1 = s.slab_next * 2 ∧
    INITIAL_SLAB_VALUES.length ≤ s.slab_next ∧
    cellAt (addHeapObject v s).2.slab s.slab_next = Cell.obj v (some 1) ∧
    (∀ j, j ≠ s.slab_next → (addHeapObject v s).2.slab[j]? = s.slab[j]?) := by
  obtain ⟨fl, hch, hnd, hlow, hocc, hseed⟩ := hinv
  have hlen4 : INITIAL_SLAB_VALUES.length ≤ s.slab.length :=
    slabInv_length ⟨fl, hch, hnd, hlow, hocc, hseed⟩
  by_cases hg : s.slab_next = s.slab.length
  · -- growth case: the free list is empty and the slab gains one slot
    have hfl : fl = [] := FreeChain.eq_nil (hg ▸ hch)
    subst hfl
    have hcell : cellAt (s.slab ++ [Cell.num (s.slab.length + 1)]) s.slab.length =
        Cell.num (s.slab.length + 1) := by
      apply cellAt_of_getElem?
      simp
    have hgrow : addHeapObject v s =
        (s.slab_next * 2,
         { slab := (s.slab ++ [Cell.num (s.slab.length + 1)]).set s.slab.length
             (Cell.obj v (some 1)),
           slab_next := s.slab.length + 1 }) := by
      simp only [addHeapObject]
      rw [if_pos hg, hg, hcell]
    rw [hgrow]
    refine ⟨⟨[], ?_, List.nodup_nil, by simp, ?_, ?_⟩, ?_, rfl, by omega, ?_, ?_⟩
    · have h0 : FreeChain
          ((s.slab ++ [Cell.num (s.slab.length + 1)]).set s.slab.length
            (Cell.obj v (some 1)))
          (((s.slab ++ [Cell.num (s.slab.length + 1)]).set s.slab.length
            (Cell.obj v (some 1))).length) [] := FreeChain.nil
      simpa [List.length_set] using h0
    · intro i hi _
      simp only [List.length_set, List.length_append, List.length_singleton] at hi
      by_cases hil : i < s.slab.length
      · have : ((s.slab ++ [Cell.num (s.slab.length + 1)]).set s.slab.length
            (Cell.obj v (some 1)))[i]? = s.slab[i]? := by
          rw [List.getElem?_set_ne (by omega), List.getElem?_append_left hil]
        rw [cellAt, this, ← cellAt]
        exact hocc i hil (by simp)
      · have hieq : i = s.slab.length := by omega
        subst hieq
        have : ((s.slab ++ [Cell.num (s.slab.length + 1)]).set s.slab.length
            (Cell.obj v (some 1)))[s.slab.length]? = some (Cell.obj v (some 1)) := by
          rw [List.getElem?_set_self]
          simp
        rw [cellAt, this]
        rfl
    · intro i w hw
      have hi4 : i < INITIAL_SLAB_VALUES.length := (List.getElem?_eq_some.mp hw).1
      rw [List.getElem?_set_ne (by omega), List.getElem?_append_left (by omega)]
      exact hseed i w hw
    · have h2 : s.slab_next * 2 / 2 = s.slab_next := by omega
      rw [h2]
      unfold liveIdx
      have : cellAt s.slab s.slab_next = Cell.num 0 := by
        unfold cellAt
        rw [List.getElem?_eq_none (by omega)]
        rfl
      rw [this]
    · apply cellAt_of_getElem?
      rw [hg, List.getElem?_set_self]
      simp
    · intro j hj
      have hj' : j ≠ s.slab.length := by omega
      by_cases hjl : j < s.slab.length
      · rw [List.getElem?_set_ne (Ne.symm hj'), List.getElem?_append_left hjl]
      · rw [List.getElem?_set_ne (Ne.symm hj'), List.getElem?_eq_none (by simp; omega),
          List.getElem?_eq_none (by omega)]
  · -- reuse case: the head of the free list is recycled
    rcases fl with _ | ⟨i, l'⟩
    · exact absurd (FreeChain.nil_inv hch) hg
    · obtain ⟨hni, m, hcell, hrest⟩ := FreeChain.cons_inv hch
      subst hni
      have hlt : s.slab_next < s.slab.length := (List.getElem?_eq_some.mp hcell).1
      have hreuse : addHeapObject v s =
          (s.slab_next * 2,
           { slab := s.slab.set s.slab_next (Cell.obj v (some 1)), slab_next := m }) := by
        simp only [addHeapObject]
        rw [if_neg hg, cellAt_of_getElem? hcell]
      rw [hreuse]
      have hnotl : s.slab_next ∉ l' := (List.nodup_cons.mp hnd).1
      refine ⟨⟨l', hrest.set_outside hnotl, (List.nodup_cons.mp hnd).2,
        fun i hi => hlow i (List.mem_cons_of_mem _ hi), ?_, ?_⟩, ?_, rfl,
        hlow _ (List.mem_cons_self _ _), ?_, ?_⟩
      · intro i hi hil
        simp only [List.length_set] at hi
        by_cases hieq : i = s.slab_next
        · subst hieq
          rw [cellAt, List.getElem?_set_self hlt]
          rfl
        · rw [cellAt, List.getElem?_set_ne (Ne.symm hieq), ← cellAt]
          exact hocc i hi (by simp [hieq, hil])
      · intro i w hw
        have hi4 : i < INITIAL_SLAB_VALUES.length := (List.getElem?_eq_some.mp hw).1
        have : i ≠ s.slab_next := by
          have := hlow _ (List.mem_cons_self s.slab_next l')
          omega
        rw [List.getElem?_set_ne (Ne.symm this)]
        exact hseed i w hw
      · have h2 : s.slab_next * 2 / 2 = s.slab_next := by omega
        rw [h2]
        unfold liveIdx
        rw [cellAt_of_getElem? hcell]
      · apply cellAt_of_getElem?
        rw [List.getElem?_set_self hlt]
      · intro j hj
        rw [List.getElem?_set_ne (Ne.symm hj)]

theorem initial_slab_values_length : INITIAL_SLAB_VALUES.length = 4 := rfl

theorem FreeChain.not_mem_of_obj {slab : List Cell} {n : Nat} {fl : List Nat}
    (hch : FreeChain slab n fl) {i : Nat} {v : JsValue} {c : Option Nat}
    (hcell : cellAt slab i = Cell.obj v c) : i ∉ fl := by
  intro hmem
  obtain ⟨m, hm⟩ := hch.mem_num i hmem
  rw [cellAt_of_getElem? hm] at hcell
  cases hcell

/-- Overwriting an occupied cell with another object cell preserves the
invariant, provided a seeded cell is only ever rewritten to itself. -/
theorem slabInv_set_obj {s : SlabState} (hinv : SlabInv s) {i : Nat} {v : JsValue}
    {c : Option Nat} (hcell : cellAt s.slab i = Cell.obj v c) (w : JsValue)
    (c' : Option Nat) (hi : INITIAL_SLAB_VALUES.length ≤ i ∨ (w = v ∧ c' = c)) :
    SlabInv { s with slab := s.slab.set i (Cell.obj w c') } := by
  obtain ⟨fl, hch, hnd, hlow, hocc, hseed⟩ := hinv
  have hnot : i ∉ fl := hch.not_mem_of_obj hcell
  refine ⟨fl, hch.set_outside hnot, hnd, hlow, ?_, ?_⟩
  · intro j hj hjl
    simp only [List.length_set] at hj
    by_cases hji : j = i
    · subst hji
      rw [cellAt, List.getElem?_set_self (lt_of_cellAt_obj hcell)]
      rfl
    · rw [cellAt, List.getElem?_set_ne (Ne.symm hji), ← cellAt]
      exact hocc j hj hjl
  · intro j sv hsv
    have hj4 : j < INITIAL_SLAB_VALUES.length := (List.getElem?_eq_some.mp hsv).1
    by_cases hji : j = i
    · subst hji
      rcases hi with hge | ⟨rfl, rfl⟩
      · omega
      · have hold := cellAt_of_getElem? (hseed j sv hsv)
        rw [hcell] at hold
        simp only [Cell.obj.injEq] at hold
        obtain ⟨rfl, rfl⟩ := hold
        rw [List.getElem?_set_self (lt_of_cellAt_obj hcell)]
    · rw [List.getElem?_set_ne (Ne.symm hji)]
      exact hseed j sv hsv

/-- Freeing an occupied non-seeded cell (threading it into the free list)
preserves the invariant. -/
theorem slabInv_free {s : SlabState} (hinv : SlabInv s) {i : Nat} {v : JsValue}
    {c : Option Nat} (hcell : cellAt s.slab i = Cell.obj v c)
    (hi : INITIAL_SLAB_VALUES.length ≤ i) :
    SlabInv { slab := s.slab.set i (Cell.num s.slab_next), slab_next := i } := by
  obtain ⟨fl, hch, hnd, hlow, hocc, hseed⟩ := hinv
  have hnot : i ∉ fl := hch.not_mem_of_obj hcell
  refine ⟨i :: fl,
    FreeChain.cons (by rw [List.getElem?_set_self (lt_of_cellAt_obj hcell)])
      (hch.set_outside hnot),
    List.nodup_cons.mpr ⟨hnot, hnd⟩, ?_, ?_, ?_⟩
  · intro j hj
    rcases List.mem_cons.mp hj with rfl | hj
    · exact hi
    · exact hlow j hj
  · intro j hj hjl
    simp only [List.length_set] at hj
    have hji : j ≠ i := fun h => hjl (h ▸ List.mem_cons_self i fl)
    have hjfl : j ∉ fl := fun h => hjl (List.mem_cons_of_mem _ h)
    rw [cellAt, List.getElem?_set_ne (Ne.symm hji), ← cellAt]
    exact hocc j hj hjfl
  · intro j sv hsv
    have hj4 : j < INITIAL_SLAB_VALUES.length := (List.getElem?_eq_some.mp hsv).1
    rw [List.getElem?_set_ne (by omega)]
    exact hseed j sv hsv

/-- `dropRef` only ever writes the cell `handle >> 1`. -/
theorem dropRef_cell_untouched (h : Nat) (s : SlabState) (j : Nat) (hj : j ≠ h / 2) :
    (dropRef h s).slab[j]? = s.slab[j]? := by
  simp only [dropRef]
  split
  · rfl
  · split
    · split
      · exact List.getElem?_set_ne (Ne.symm hj)
      · exact List.getElem?_set_ne (Ne.symm hj)
    · exact List.getElem?_set_ne (Ne.symm hj)

/-- `cloneRef` on an even handle only ever writes the cell `handle >> 1`. -/
theorem cloneRef_cell_untouched (stack : List JsValue) (h : Nat) (s : SlabState)
    (j : Nat) (hnodd : ¬ h % 2 = 1) (hj : j ≠ h / 2) :
    ((cloneRef stack h s).2).slab[j]? = s.slab[j]? := by
  simp only [cloneRef]
  rw [if_neg hnodd]
  split
  · exact List.getElem?_set_ne (Ne.symm hj)
  · rfl

/-- Release-mode `dropRef` preserves the invariant on valid drops. -/
theorem dropRef_inv (h : Nat) (s : SlabState) (hinv : SlabInv s)
    (hvalid : validOp s (SlabOp.drop h) = true) : SlabInv (dropRef h s) := by
  simp only [validOp, Bool.and_eq_true, Bool.or_eq_true, decide_eq_true_eq,
    beq_iff_eq] at hvalid
  obtain ⟨heven, hok⟩ := hvalid
  by_cases hlt : h / 2 < INITIAL_SLAB_VALUES.length
  · have hnoop : dropRef h s = s := by
      simp only [dropRef]
      rw [if_pos hlt]
    rwa [hnoop]
  · have hlive : liveIdx s (h / 2) = true := hok.resolve_left hlt
    unfold liveIdx at hlive
    rcases hcell : cellAt s.slab (h / 2) with n | ⟨v, cnt⟩
    · rw [hcell] at hlive
      simp at hlive
    · rw [hcell] at hlive
      rcases cnt with _ | c
      · simp at hlive
      · have hdrop : dropRef h s =
            if 0 < c - 1 then
              { s with slab := s.slab.set (h / 2) (Cell.obj v (some (c - 1))) }
            else
              { slab := s.slab.set (h / 2) (Cell.num s.slab_next), slab_next := h / 2 } := by
          simp only [dropRef]
          rw [if_neg hlt, hcell]
          simp only [Option.map_some', Option.getD_some, gt_iff_lt]
        by_cases hc : 0 < c - 1
        · rw [hdrop, if_pos hc]
          exact slabInv_set_obj ⟨hinv.choose, hinv.choose_spec⟩ hcell v (some (c - 1))
            (Or.inl (by omega))
        · rw [hdrop, if_neg hc]
          exact slabInv_free ⟨hinv.choose, hinv.choose_spec⟩ hcell (by omega)

/-- Every valid operation preserves the slab invariant. -/
theorem stepOp_inv (stack : List JsValue) (s : SlabState) (op : SlabOp)
    (hinv : SlabInv s) (hv : validOp s op = true) : SlabInv (stepOp stack s op) := by
  cases op with
  | add v => exact (addHeapObject_props v s hinv).1
  | drop h => exact dropRef_inv h s hinv hv
  | clone h =>
    simp only [validOp, Bool.or_eq_true, beq_iff_eq] at hv
    by_cases hodd : h % 2 = 1
    · have heq : stepOp stack s (SlabOp.clone h) =
          (addHeapObject (stack.getD (h / 2) JsValue.undef) s).2 := by
        simp only [stepOp, cloneRef]
        rw [if_pos hodd]
      rw [heq]
      exact (addHeapObject_props _ s hinv).1
    · have hobj : cellIsObj (cellAt s.slab (h / 2)) = true := hv.resolve_left hodd
      rcases hcell : cellAt s.slab (h / 2) with n | ⟨v, cnt⟩
      · rw [hcell] at hobj
        cases hobj
      · have heq : stepOp stack s (SlabOp.clone h) =
            { s with slab := s.slab.set (h / 2) (Cell.obj v (cnt.map (fun c => c + 1))) } := by
          simp only [stepOp, cloneRef]
          rw [if_neg hodd, hcell]
        rw [heq]
        apply slabInv_set_obj hinv hcell
        by_cases h4 : INITIAL_SLAB_VALUES.length ≤ h / 2
        · exact Or.inl h4
        · right
          refine ⟨rfl, ?_⟩
          obtain ⟨fl, hch, hnd, hlow, hocc, hseed⟩ := hinv
          have hlt : h / 2 < INITIAL_SLAB_VALUES.length := by omega
          have hsv : INITIAL_SLAB_VALUES[h / 2]? = some (INITIAL_SLAB_VALUES[h / 2]) :=
            List.getElem?_eq_getElem hlt
          have hold := cellAt_of_getElem? (hseed (h / 2) _ hsv)
          rw [hcell] at hold
          simp only [Cell.obj.injEq] at hold
          rw [hold.2]
          rfl

/-- A valid trace starting from a well-formed slab keeps it well-formed. -/
theorem runOps_inv (stack : List JsValue) (ops : List SlabOp) (s : SlabState)
    (hinv : SlabInv s) (hv : validTrace stack s ops = true) :
    SlabInv (runOps stack s ops) := by
  induction ops generalizing s with
  | nil => exact hinv
  | cons op rest ih =>
    simp only [validTrace, Bool.and_eq_true] at hv
    exact ih _ (stepOp_inv stack s op hinv hv.1) hv.2

theorem validTrace_append {stack : List JsValue} {s : SlabState} {l1 l2 : List SlabOp}
    (h : validTrace stack s (l1 ++ l2) = true) :
    validTrace stack s l1 = true ∧ validTrace stack (runOps stack s l1) l2 = true := by
  induction l1 generalizing s with
  | nil => exact ⟨rfl, h⟩
  | cons op rest ih =>
    simp only [List.cons_append, validTrace, Bool.and_eq_true] at h ⊢
    obtain ⟨h1, h2⟩ := h
    obtain ⟨ha, hb⟩ := ih h2
    exact ⟨⟨h1, ha⟩, hb⟩

theorem handleHolds_live {s : SlabState} {h : Nat} {v : JsValue}
    (hh : handleHolds s h v) : liveIdx s (h / 2) = true := by
  obtain ⟨_, c, hc, hpos⟩ := hh
  unfold liveIdx
  rw [hc]
  simpa

theorem getObject_of_holds {stack : List JsValue} {s : SlabState} {h : Nat}
    {v : JsValue} (hh : handleHolds s h v) : getObject stack s h = some v := by
  obtain ⟨heven, c, hc, _⟩ := hh
  unfold getObject
  rw [if_neg (by omega), hc]

/-- A valid operation that does not target the live handle `h` leaves its
cell untouched. -/
theorem stepOp_holds (stack : List JsValue) (s : SlabState) (op : SlabOp) (h : Nat)
    (v : JsValue) (hinv : SlabInv s) (hh : handleHolds s h v)
    (hv : validOp s op = true) (ht : opTouches op h = false) :
    handleHolds (stepOp stack s op) h v := by
  obtain ⟨heven, c, hc, hpos⟩ := hh
  refine ⟨heven, c, ?_, hpos⟩
  have hfreshgen : ∀ w, cellAt (addHeapObject w s).2.slab (h / 2) =
      cellAt s.slab (h / 2) := by
    intro w
    obtain ⟨_, hfresh, hfst, _, _, huntouched⟩ := addHeapObject_props w s hinv
    have h2 : s.slab_next * 2 / 2 = s.slab_next := by omega
    rw [hfst, h2] at hfresh
    have hne : h / 2 ≠ s.slab_next := by
      intro heq
      have hl := handleHolds_live ⟨heven, c, hc, hpos⟩
      rw [heq] at hl
      rw [hl] at hfresh
      cases hfresh
    rw [cellAt, huntouched (h / 2) hne, ← cellAt]
  cases op with
  | add w =>
    rw [show stepOp stack s (SlabOp.add w) = (addHeapObject w s).2 from rfl, hfreshgen w, hc]
  | drop h' =>
    have hne : ¬ h' = h := by simpa [opTouches] using ht
    simp only [validOp, Bool.and_eq_true, beq_iff_eq] at hv
    have hidx : h / 2 ≠ h' / 2 := by omega
    rw [show stepOp stack s (SlabOp.drop h') = dropRef h' s from rfl, cellAt,
      dropRef_cell_untouched h' s (h / 2) hidx, ← cellAt, hc]
  | clone h' =>
    have hne : ¬ h' = h := by simpa [opTouches] using ht
    by_cases hodd : h' % 2 = 1
    · have heq : stepOp stack s (SlabOp.clone h') =
          (addHeapObject (stack.getD (h' / 2) JsValue.undef) s).2 := by
        simp only [stepOp, cloneRef]
        rw [if_pos hodd]
      rw [heq, hfreshgen _, hc]
    · simp only [validOp, Bool.or_eq_true, beq_iff_eq] at hv
      have heven' : h' % 2 = 0 := by omega
      have hidx : h / 2 ≠ h' / 2 := by omega
      rw [show stepOp stack s (SlabOp.clone h') = (cloneRef stack h' s).2 from rfl, cellAt,
        cloneRef_cell_untouched stack h' s (h / 2) hodd hidx, ← cellAt, hc]

/-- Lifting `stepOp_holds` to whole traces. -/
theorem runOps_holds (stack : List JsValue) (ops : List SlabOp) (s : SlabState)
    (h : Nat) (v : JsValue) (hinv : SlabInv s) (hh : handleHolds s h v)
    (hv : validTrace stack s ops = true)
    (ht : ∀ op ∈ ops, opTouches op h = false) :
    handleHolds (runOps stack s ops) h v := by
  induction ops generalizing s with
  | nil => exact hh
  | cons op rest ih =>
    simp only [validTrace, Bool.and_eq_true] at hv
    exact ih _ (stepOp_inv stack s op hinv hv.1)
      (stepOp_holds stack s op h v hinv hh hv.1 (ht op (List.mem_cons_self _ _))) hv.2
      (fun o ho => ht o (List.mem_cons_of_mem _ ho))

/-! ### Claims about the slab protocol (C1 - C4, C10) -/

/-- Claim C1: for every valid sequence of slab operations on the emitted
slab, starting from the initial state, whenever an `addHeapObject` call in
the sequence allocates, the slab index of the handle it returns is not live
(refcount > 0) beforehand and is live afterwards — a cell is threaded into
the free list only when its refcount reaches zero, and `addHeapObject` takes
cells only from the free list, growing the slab by one slot when the free
list is empty.  Hence no two simultaneously live handles ever share a slab
index. -/
theorem claim_C1_no_live_reuse (stack : List JsValue)
    (ops pre post : List SlabOp) (v : JsValue)
    (hsplit : ops = pre ++ SlabOp.add v :: post)
    (hvalid : validTrace stack initSlabState ops = true) :
    liveIdx (runOps stack initSlabState pre)
      ((addHeapObject v (runOps stack initSlabState pre)).1 / 2) = false ∧
    liveIdx (addHeapObject v (runOps stack initSlabState pre)).2
      ((addHeapObject v (runOps stack initSlabState pre)).1 / 2) = true := by
  subst hsplit
  obtain ⟨hpre, _⟩ := validTrace_append hvalid
  have hinv := runOps_inv stack pre initSlabState slabInv_init hpre
  obtain ⟨_, hfresh, hfst, _, hcellnew, _⟩ :=
    addHeapObject_props v (runOps stack initSlabState pre) hinv
  have h2 : (addHeapObject v (runOps stack initSlabState pre)).1 / 2 =
      (runOps stack initSlabState pre).slab_next := by
    rw [hfst]
    omega
  refine ⟨hfresh, ?_⟩
  rw [h2]
  unfold liveIdx
  rw [hcellnew]
  rfl

/-- Witness for C1: allocate, release, and allocate again; the recycled cell
was dead at the moment of reuse and is live right after. -/
theorem claim_C1_no_live_reuse_witness :
    liveIdx (runOps [] initSlabState [SlabOp.add (JsValue.num 1), SlabOp.drop 8])
      ((addHeapObject (JsValue.num 2)
        (runOps [] initSlabState [SlabOp.add (JsValue.num 1), SlabOp.drop 8])).1 / 2) = false ∧
    liveIdx (addHeapObject (JsValue.num 2)
        (runOps [] initSlabState [SlabOp.add (JsValue.num 1), SlabOp.drop 8])).2
      ((addHeapObject (JsValue.num 2)
        (runOps [] initSlabState [SlabOp.add (JsValue.num 1), SlabOp.drop 8])).1 / 2) = true :=
  claim_C1_no_live_reuse [] _ [SlabOp.add (JsValue.num 1), SlabOp.drop 8] []
    (JsValue.num 2) rfl (by decide)

/-- Claim C2: a handle freshly returned by `addHeapObject v` dereferences to
`v` through `getObject`, and keeps doing so across any valid sequence of
slab operations that target other handles (so in particular while no
`dropRef` is directed at this handle, whose refcount stays positive). -/
theorem claim_C2_getObject_stable (stack : List JsValue) (s : SlabState)
    (v : JsValue) (ops : List SlabOp) (hinv : SlabInv s)
    (hvalid : validTrace stack (addHeapObject v s).2 ops = true)
    (ht : ∀ op ∈ ops, opTouches op (addHeapObject v s).1 = false) :
    getObject stack (addHeapObject v s).2 (addHeapObject v s).1 = some v ∧
    getObject stack (runOps stack (addHeapObject v s).2 ops)
      (addHeapObject v s).1 = some v := by
  obtain ⟨hinv2, _, hfst, _, hcellnew, _⟩ := addHeapObject_props v s hinv
  have hholds : handleHolds (addHeapObject v s).2 (addHeapObject v s).1 v := by
    refine ⟨by rw [hfst]; omega, 1, ?_, Nat.one_pos⟩
    have h2 : (addHeapObject v s).1 / 2 = s.slab_next := by
      rw [hfst]
      omega
    rw [h2, hcellnew]
  exact ⟨getObject_of_holds hholds,
    getObject_of_holds (runOps_holds stack ops _ _ v hinv2 hholds hvalid ht)⟩

/-- Witness for C2: the value stored under handle 8 survives an unrelated
allocation and an unrelated release. -/
theorem claim_C2_getObject_stable_witness :
    getObject [] (addHeapObject (JsValue.str "x") initSlabState).2
      (addHeapObject (JsValue.str "x") initSlabState).1 = some (JsValue.str "x") ∧
    getObject [] (runOps [] (addHeapObject (JsValue.str "x") initSlabState).2
        [SlabOp.add (JsValue.num 7), SlabOp.drop 10])
      (addHeapObject (JsValue.str "x") initSlabState).1 = some (JsValue.str "x") :=
  claim_C2_getObject_stable [] initSlabState (JsValue.str "x")
    [SlabOp.add (JsValue.num 7), SlabOp.drop 10] slabInv_init (by decide) (by decide)

/-- Counterexample to claim C3 as stated: release-mode `dropRef` is NOT a
no-op on every stack (odd) handle.  After one allocation (handle 8, slab
index 4, refcount 1), `dropRef 9` — an odd handle — shifts away the tag bit
and decrements slab cell `9 >> 1 = 4`, freeing it: the slab is modified. -/
theorem claim_C3_counterexample :
    dropRef 9 (addHeapObject (JsValue.num 42) initSlabState).2 ≠
      (addHeapObject (JsValue.num 42) initSlabState).2 := by decide

/-- Claim C3 (amended): in debug builds `dropRef` on any odd (stack) handle
faults with "cannot drop ref of stack objects".  In release builds `dropRef`
ignores the tag bit entirely — `dropRef h` behaves exactly like a drop of
the even handle `2 * (h >> 1)` — so it is a no-op on an odd handle only when
`h >> 1` lands in the four seeded cells.  On handles addressing an occupied
refcounted slab cell past the seeded cells it decrements the refcount, and
exactly when the count reaches zero it links the cell into the free list. -/
theorem claim_C3_dropRef_amended :
    (∀ (h : Nat) (s : SlabState), h % 2 = 1 →
      dropRefDebug h s = Except.error "cannot drop ref of stack objects") ∧
    (∀ (h : Nat) (s : SlabState), h % 2 = 1 → h / 2 < INITIAL_SLAB_VALUES.length →
      dropRef h s = s) ∧
    (∀ (h : Nat) (s : SlabState), dropRef h s = dropRef (2 * (h / 2)) s) ∧
    (∀ (h : Nat) (s : SlabState) (v : JsValue) (c : Nat),
      INITIAL_SLAB_VALUES.length ≤ h / 2 →
      cellAt s.slab (h / 2) = Cell.obj v (some c) →
      dropRef h s =
        if 0 < c - 1 then
          { s with slab := s.slab.set (h / 2) (Cell.obj v (some (c - 1))) }
        else
          { slab := s.slab.set (h / 2) (Cell.num s.slab_next), slab_next := h / 2 }) := by
  refine ⟨?_, ?_, ?_, ?_⟩
  · intro h s hodd
    simp only [dropRefDebug]
    rw [if_pos hodd]
  · intro h s _ h4
    simp only [dropRef]
    rw [if_pos h4]
  · intro h s
    have h2 : 2 * (h / 2) / 2 = h / 2 := by omega
    simp only [dropRef]
    rw [h2]
  · intro h s v c h4 hcell
    simp only [dropRef]
    rw [if_neg (by omega), hcell]
    simp only [Option.map_some', Option.getD_some, gt_iff_lt]

/-- Witness for the amended C3, on a slab holding `\x7bobj: 42, cnt: 1\x7d` at
index 4: the debug fault on handle 9, the release no-op on handle 3, the
tag-bit-blindness of release mode, and the decrement-to-free behaviour. -/
theorem claim_C3_dropRef_amended_witness :
    dropRefDebug 9 (addHeapObject (JsValue.num 42) initSlabState).2 =
      Except.error "cannot drop ref of stack objects" ∧
    dropRef 3 initSlabState = initSlabState ∧
    dropRef 9 (addHeapObject (JsValue.num 42) initSlabState).2 =
      dropRef 8 (addHeapObject (JsValue.num 42) initSlabState).2 ∧
    dropRef 8 (addHeapObject (JsValue.num 42) initSlabState).2 =
      { slab := ((addHeapObject (JsValue.num 42) initSlabState).2).slab.set 4
          (Cell.num ((addHeapObject (JsValue.num 42) initSlabState).2).slab_next),
        slab_next := 4 } :=
  ⟨claim_C3_dropRef_amended.1 9 _ rfl,
   claim_C3_dropRef_amended.2.1 3 initSlabState rfl (by decide),
   claim_C3_dropRef_amended.2.2.1 9 _,
   by
     have h := claim_C3_dropRef_amended.2.2.2 8
       (addHeapObject (JsValue.num 42) initSlabState).2 (JsValue.num 42) 1
       (by decide) (by decide)
     simpa using h⟩

/-- Claim C4: the emitted `__wbindgen_object_clone_ref` body, on an even
(slab) handle addressing a refcounted cell, returns the very same handle and
only bumps that cell's refcount by one; on an even handle addressing a
seeded constant cell (emitted without a `cnt` field) it returns the handle
and leaves the cell without a numeric refcount (`undefined + 1` is NaN); on
an odd (stack) handle it promotes the value: it returns a fresh even slab
handle whose `getObject` dereference equals that of the original handle. -/
theorem claim_C4_cloneRef (stack : List JsValue) (s : SlabState) (h : Nat) :
    (∀ (v : JsValue) (c : Nat), h % 2 = 0 →
      cellAt s.slab (h / 2) = Cell.obj v (some c) →
      cloneRef stack h s =
        (h, { s with slab := s.slab.set (h / 2) (Cell.obj v (some (c + 1))) })) ∧
    (∀ (v : JsValue), h % 2 = 0 → cellAt s.slab (h / 2) = Cell.obj v none →
      cloneRef stack h s =
        (h, { s with slab := s.slab.set (h / 2) (Cell.obj v none) })) ∧
    (h % 2 = 1 → SlabInv s → h / 2 < stack.length →
      (cloneRef stack h s).1 % 2 = 0 ∧
      getObject stack (cloneRef stack h s).2 ((cloneRef stack h s).1) =
        getObject stack s h) := by
  refine ⟨?_, ?_, ?_⟩
  · intro v c heven hcell
    simp only [cloneRef]
    rw [if_neg (by omega), hcell]
    rfl
  · intro v heven hcell
    simp only [cloneRef]
    rw [if_neg (by omega), hcell]
    rfl
  · intro hodd hinv hlt
    have heq : cloneRef stack h s = addHeapObject (stack.getD (h / 2) JsValue.undef) s := by
      simp only [cloneRef]
      rw [if_pos hodd]
    obtain ⟨_, _, hfst, _, hcellnew, _⟩ :=
      addHeapObject_props (stack.getD (h / 2) JsValue.undef) s hinv
    rw [heq]
    refine ⟨by rw [hfst]; omega, ?_⟩
    have h2 : (addHeapObject (stack.getD (h / 2) JsValue.undef) s).1 / 2 = s.slab_next := by
      rw [hfst]
      omega
    have hget : getObject stack (addHeapObject (stack.getD (h / 2) JsValue.undef) s).2
        (addHeapObject (stack.getD (h / 2) JsValue.undef) s).1 =
        some (stack.getD (h / 2) JsValue.undef) := by
      unfold getObject
      rw [if_neg (by rw [hfst]; omega), h2, hcellnew]
    rw [hget]
    unfold getObject
    rw [if_pos hodd, List.getElem?_eq_getElem hlt, List.getD_eq_getElem?_getD,
      List.getElem?_eq_getElem hlt]
    rfl

/-- Witness for C4: bumping handle 8's refcount, cloning the seeded `true`
cell (handle 4), and promoting the stack handle 1. -/
theorem claim_C4_cloneRef_witness :
    cloneRef [JsValue.num 5] 8 (addHeapObject (JsValue.num 42) initSlabState).2 =
      (8, { (addHeapObject (JsValue.num 42) initSlabState).2 with
            slab := ((addHeapObject (JsValue.num 42) initSlabState).2).slab.set 4
              (Cell.obj (JsValue.num 42) (some 2)) }) ∧
    cloneRef [JsValue.num 5] 4 initSlabState =
      (4, { initSlabState with
            slab := initSlabState.slab.set 2 (Cell.obj (JsValue.boolean true) none) }) ∧
    ((cloneRef [JsValue.num 5] 1 initSlabState).1 % 2 = 0 ∧
      getObject [JsValue.num 5] (cloneRef [JsValue.num 5] 1 initSlabState).2
        ((cloneRef [JsValue.num 5] 1 initSlabState).1) =
        getObject [JsValue.num 5] initSlabState 1) :=
  ⟨(claim_C4_cloneRef [JsValue.num 5] _ 8).1 (JsValue.num 42) 1 rfl (by decide),
   (claim_C4_cloneRef [JsValue.num 5] initSlabState 4).2.1 (JsValue.boolean true) rfl
     (by decide),
   (claim_C4_cloneRef [JsValue.num 5] initSlabState 1).2.2 rfl slabInv_init
     (by decide)⟩

/-- Claim C10: the four seeded constant cells (even handles 0, 2, 4, 6) are
never freed or reused: `dropRef` returns immediately on any handle whose
slab index is below four, the free-list head starts at index 4 (one past the
seeds), every valid trace leaves the four seeded cells exactly as emitted,
and every handle `addHeapObject` returns along a valid trace is even and at
least 8. -/
theorem claim_C10_seeded_cells (stack : List JsValue) (ops : List SlabOp)
    (hvalid : validTrace stack initSlabState ops = true) :
    (∀ (h : Nat) (s : SlabState), h / 2 < INITIAL_SLAB_VALUES.length →
      dropRef h s = s) ∧
    initSlabState.slab_next = INITIAL_SLAB_VALUES.length ∧
    (∀ (i : Nat) (v : JsValue), INITIAL_SLAB_VALUES[i]? = some v →
      (runOps stack initSlabState ops).slab[i]? = some (Cell.obj v none)) ∧
    (∀ v : JsValue,
      (addHeapObject v (runOps stack initSlabState ops)).1 % 2 = 0 ∧
      8 ≤ (addHeapObject v (runOps stack initSlabState ops)).1) := by
  have hinv := runOps_inv stack ops initSlabState slabInv_init hvalid
  refine ⟨?_, rfl, ?_, ?_⟩
  · intro h s h4
    simp only [dropRef]
    rw [if_pos h4]
  · intro i v hv
    obtain ⟨fl, hch, hnd, hlow, hocc, hseed⟩ := hinv
    exact hseed i v hv
  · intro v
    obtain ⟨_, _, hfst, hge, _, _⟩ := addHeapObject_props v _ hinv
    rw [hfst]
    rw [initial_slab_values_length] at hge
    omega

/-- Witness for C10 on the one-allocation trace. -/
theorem claim_C10_seeded_cells_witness :
    dropRef 3 initSlabState = initSlabState ∧
    initSlabState.slab_next = INITIAL_SLAB_VALUES.length ∧
    (runOps [] initSlabState [SlabOp.add (JsValue.num 1)]).slab[1]? =
      some (Cell.obj JsValue.null none) ∧
    (addHeapObject (JsValue.num 5)
      (runOps [] initSlabState [SlabOp.add (JsValue.num 1)])).1 % 2 = 0 ∧
    8 ≤ (addHeapObject (JsValue.num 5)
      (runOps [] initSlabState [SlabOp.add (JsValue.num 1)])).1 := by
  have h := claim_C10_seeded_cells [] [SlabOp.add (JsValue.num 1)] (by decide)
  exact ⟨h.1 3 initSlabState (by decide), h.2.1,
    h.2.2.1 1 JsValue.null (by decide),
    (h.2.2.2 (JsValue.num 5)).1, (h.2.2.2 (JsValue.num 5)).2⟩

/-! ### Claims about the generator bookkeeping (C6 - C9) -/

/-- Claim C6: `require_internal_export` fails — with a message naming the
missing export — exactly when the name is neither already in the
required-exports memo set nor among the module's exports; on success the
name is recorded, so requiring it a second time succeeds no matter what the
module's export section holds (it is not consulted again). -/
theorem claim_C6_require_internal_export (name : String) (st : RequireState) :
    ((∃ e, require_internal_export name st = Except.error e) ↔
      (name ∉ st.required_internal_exports ∧ name ∉ st.module_exports)) ∧
    (∀ e, require_internal_export name st = Except.error e →
      e = requireErrorMsg name ∧
      ∃ pre post, e = pre ++ name ++ post) ∧
    (∀ st2, require_internal_export name st = Except.ok st2 →
      name ∈ st2.required_internal_exports ∧
      (∀ exps : List String,
        require_internal_export name { st2 with module_exports := exps } =
          Except.ok { st2 with module_exports := exps })) := by
  refine ⟨⟨?_, ?_⟩, ?_, ?_⟩
  · rintro ⟨e, he⟩
    unfold require_internal_export at he
    by_cases h1 : name ∈ st.required_internal_exports
    · rw [if_pos h1] at he
      simp at he
    · rw [if_neg h1] at he
      by_cases h2 : name ∈ st.module_exports
      · rw [if_pos h2] at he
        simp at he
      · exact ⟨h1, h2⟩
  · rintro ⟨h1, h2⟩
    unfold require_internal_export
    rw [if_neg h1, if_neg h2]
    exact ⟨_, rfl⟩
  · intro e he
    unfold require_internal_export at he
    by_cases h1 : name ∈ st.required_internal_exports
    · rw [if_pos h1] at he
      simp at he
    · rw [if_neg h1] at he
      by_cases h2 : name ∈ st.module_exports
      · rw [if_pos h2] at he
        simp at he
      · rw [if_neg h2] at he
        simp only [Except.error.injEq] at he
        refine ⟨he.symm, "the exported function `",
          "` is required to generate bindings but it was not found in the wasm " ++
            "file, perhaps the `std` feature of the `wasm-bindgen` crate needs " ++
            "to be enabled?", ?_⟩
        rw [← he]
        simp [requireErrorMsg, String.append_assoc]
  · intro st2 hok
    unfold require_internal_export at hok
    by_cases h1 : name ∈ st.required_internal_exports
    · rw [if_pos h1] at hok
      simp only [Except.ok.injEq] at hok
      subst hok
      refine ⟨h1, fun exps => ?_⟩
      unfold require_internal_export
      rw [if_pos h1]
    · rw [if_neg h1] at hok
      by_cases h2 : name ∈ st.module_exports
      · rw [if_pos h2] at hok
        simp only [Except.ok.injEq] at hok
        subst hok
        refine ⟨List.mem_cons_self _ _, fun exps => ?_⟩
        unfold require_internal_export
        rw [if_pos (List.mem_cons_self _ _)]
      · rw [if_neg h2] at hok
        simp at hok

/-- Witness for C6: requiring `__wbindgen_free` of a module exporting only
`__wbindgen_malloc` fails; requiring `__wbindgen_malloc` succeeds, records
the name, and a repeat requirement succeeds even against an emptied export
section. -/
theorem claim_C6_require_internal_export_witness :
    (∃ e, require_internal_export "__wbindgen_free"
      ⟨[], ["__wbindgen_malloc"]⟩ = Except.error e) ∧
    "__wbindgen_malloc" ∈
      (RequireState.mk ["__wbindgen_malloc"] ["__wbindgen_malloc"]).required_internal_exports ∧
    require_internal_export "__wbindgen_malloc"
      ⟨["__wbindgen_malloc"], []⟩ = Except.ok ⟨["__wbindgen_malloc"], []⟩ := by
  refine ⟨(claim_C6_require_internal_export "__wbindgen_free"
    ⟨[], ["__wbindgen_malloc"]⟩).1.mpr ⟨by decide, by decide⟩, ?_⟩
  have h := (claim_C6_require_internal_export "__wbindgen_malloc"
    ⟨[], ["__wbindgen_malloc"]⟩).2.2
    ⟨["__wbindgen_malloc"], ["__wbindgen_malloc"]⟩ rfl
  exact ⟨h.1, h.2 []⟩

/-- Counterexample to claim C9 as stated: with weak-reference finalization
configured, a second `free()` does NOT pass pointer zero to the destructor —
the emitted cleanup cancellation `CLEANUPS_MAP.get(ptr).drop()` reads the
map at pointer 0, which has no registration, and faults before the
destructor is reached.  Concretely: an instance at pointer 5 with a
registered finalizer frees fine once (zeroing the field, cancelling the
registration, and passing 5 to the destructor), and the second `free()`
faults instead of invoking the destructor with 0. -/
theorem claim_C9_counterexample :
    classFree true 5 ⟨[(5, 0)], []⟩ = Except.ok (0, ⟨[], [5]⟩) ∧
    classFree true 0 ⟨[], [5]⟩ =
      Except.error "TypeError: CLEANUPS_MAP.get(ptr) is undefined" := ⟨rfl, rfl⟩

/-- Claim C9 (amended): the generated `free()` saves the pointer field,
zeroes it, and only then invokes the destructor export with the saved
pointer; when weak-reference finalization is configured it first cancels the
pending registration.  Consequently a second `free()` passes pointer zero to
the destructor when weak refs are NOT configured; with weak refs configured
the second `free()` faults on the missing cleanup registration for pointer
zero before reaching the destructor. -/
theorem claim_C9_free_method (w : FreeWorld) (p : Nat) :
    (classFree false p w =
      Except.ok (0, { w with destructor_args := w.destructor_args ++ [p] })) ∧
    (∀ r, alookup p w.cleanups = some r →
      classFree true p w =
        Except.ok (0, ⟨removeKey p w.cleanups, w.destructor_args ++ [p]⟩)) ∧
    (alookup p w.cleanups = none →
      classFree true p w =
        Except.error "TypeError: CLEANUPS_MAP.get(ptr) is undefined") := by
  refine ⟨rfl, ?_, ?_⟩
  · intro r hr
    simp [classFree, freeClassPtr, hr]
  · intro hnone
    simp [classFree, freeClassPtr, hnone]

/-- Witness for the amended C9: double free without weak refs reaches the
destructor with 0; with weak refs the registered first free succeeds and the
unregistered second faults. -/
theorem claim_C9_free_method_witness :
    classFree false 0 ⟨[], [5]⟩ = Except.ok (0, ⟨[], [5, 0]⟩) ∧
    classFree true 5 ⟨[(5, 7)], []⟩ = Except.ok (0, ⟨[], [5]⟩) ∧
    classFree true 0 ⟨[], [5]⟩ =
      Except.error "TypeError: CLEANUPS_MAP.get(ptr) is undefined" := by
  refine ⟨?_, ?_, (claim_C9_free_method ⟨[], [5]⟩ 0).2.2 rfl⟩
  · have h := (claim_C9_free_method ⟨[], [5]⟩ 0).1
    simpa using h
  · have h := (claim_C9_free_method ⟨[(5, 7)], []⟩ 5).2.1 7 (by decide)
    simpa using h

/-- Counterexample to claim C7 as stated: not every unresolvable nominal
binding fails at shim-invocation time.  (a) For a getter binding whose
property descriptor is absent on the whole prototype chain, the failure is
raised while the shim target is being resolved: the emitted
`GetOwnOrInheritedPropertyDescriptor(...)` call in the `const <shim>_target
= ...` line throws at module load, so no shim target ever exists to invoke.
(b) For a STATIC method binding, the emitted `C.m.bind(C) || fallback`
faults with a TypeError at load when `C.m` is `undefined` — reading `.bind`
off `undefined` throws before the `||` can supply the throwing fallback. -/
theorem claim_C7_counterexample :
    loadNominalGetter [[]] "p" "C.prototype.p" =
      Except.error "descriptor for id=\x27p\x27 not found" ∧
    (loadNominalGetter [[]] "p" "C.prototype.p").isOk = false ∧
    loadNominalMethodStatic [[]] "m" "C.m.bind(C)" = Except.error bindTypeError ∧
    (loadNominalMethodStatic [[]] "m" "C.m.bind(C)").isOk = false :=
  ⟨rfl, rfl, rfl, rfl⟩

/-- Claim C7 (amended): for an instance-bound (non-static) regular nominal
method binding, an unresolvable target resolves to the emitted throwing
fallback, so the first invocation of the shim raises
`wasm-bindgen: <target> does not exist`, and no undefined handle is ever
returned (a resolved target returns its real result).  Getter/setter
bindings resolve their descriptor by walking the prototype chain, a
descriptor found on any ancestor is used, and an instance descriptor that
exists but lacks the accessor again yields the fallback raising at call
time.  Two failure modes are load-time instead: when no descriptor exists
anywhere on the chain, `GetOwnOrInheritedPropertyDescriptor` itself raises
at target-resolution time with a message naming the id (instance and static
forms alike); and a STATIC binding — regular method with unresolved target,
or accessor binding whose found descriptor lacks the accessor — faults with
a TypeError at load when the emitted `.bind(class)` is evaluated on
`undefined`, before the fallback can apply.  Every path either yields a
real function or raises — never an undefined handle. -/
theorem claim_C7_import_target :
    (∀ (chain : List (List (String × Nat))) (name tn : String),
      readProp chain name = none →
      invokeTarget (loadNominalMethod chain name tn) =
        Except.error ("wasm-bindgen: " ++ tn ++ " does not exist")) ∧
    (∀ (chain : List (List (String × Nat))) (name tn : String) (f : Nat),
      readProp chain name = some f →
      invokeTarget (loadNominalMethod chain name tn) = Except.ok f) ∧
    (∀ (own : List (String × PropDesc)) (proto : List (List (String × PropDesc)))
      (g : String),
      alookup g own = none →
      getOwnOrInheritedPropertyDescriptor (own :: proto) g =
        getOwnOrInheritedPropertyDescriptor proto g) ∧
    (∀ (own : List (String × PropDesc)) (proto : List (List (String × PropDesc)))
      (g : String) (d : PropDesc),
      alookup g own = some d →
      getOwnOrInheritedPropertyDescriptor (own :: proto) g = Except.ok d) ∧
    (∀ (chain : List (List (String × PropDesc))) (g tn : String) (d : PropDesc),
      getOwnOrInheritedPropertyDescriptor chain g = Except.ok d → d.get = none →
      loadNominalGetter chain g tn = Except.ok (ImportTarget.throwMissing tn) ∧
      invokeTarget (ImportTarget.throwMissing tn) =
        Except.error ("wasm-bindgen: " ++ tn ++ " does not exist")) ∧
    (∀ (chain : List (List (String × PropDesc))) (g tn : String),
      (∀ m ∈ chain, alookup g m = none) →
      loadNominalGetter chain g tn =
        Except.error ("descriptor for id=\x27" ++ g ++ "\x27 not found") ∧
      loadNominalSetter chain g tn =
        Except.error ("descriptor for id=\x27" ++ g ++ "\x27 not found") ∧
      loadNominalGetterStatic chain g tn =
        Except.error ("descriptor for id=\x27" ++ g ++ "\x27 not found") ∧
      loadNominalSetterStatic chain g tn =
        Except.error ("descriptor for id=\x27" ++ g ++ "\x27 not found")) ∧
    (∀ (chain : List (List (String × Nat))) (name tn : String) (f : Nat),
      readProp chain name = some f →
      loadNominalMethodStatic chain name tn = Except.ok (ImportTarget.real f)) ∧
    (∀ (chain : List (List (String × Nat))) (name tn : String),
      readProp chain name = none →
      loadNominalMethodStatic chain name tn = Except.error bindTypeError) ∧
    (∀ (chain : List (List (String × PropDesc))) (g tn : String) (d : PropDesc),
      getOwnOrInheritedPropertyDescriptor chain g = Except.ok d →
      (∀ f, d.get = some f →
        loadNominalGetterStatic chain g tn = Except.ok (ImportTarget.real f)) ∧
      (d.get = none →
        loadNominalGetterStatic chain g tn = Except.error bindTypeError) ∧
      (∀ f, d.set = some f →
        loadNominalSetterStatic chain g tn = Except.ok (ImportTarget.real f)) ∧
      (d.set = none →
        loadNominalSetterStatic chain g tn = Except.error bindTypeError)) := by
  have hwalk : ∀ (chain : List (List (String × PropDesc))) (g : String),
      (∀ m ∈ chain, alookup g m = none) →
      getOwnOrInheritedPropertyDescriptor chain g =
        Except.error ("descriptor for id=\x27" ++ g ++ "\x27 not found") := by
    intro chain g hnone
    induction chain with
    | nil => rfl
    | cons own proto ih =>
      unfold getOwnOrInheritedPropertyDescriptor
      rw [hnone own (List.mem_cons_self _ _)]
      exact ih (fun m hm => hnone m (List.mem_cons_of_mem _ hm))
  refine ⟨?_, ?_, ?_, ?_, ?_, ?_, ?_, ?_, ?_⟩
  · intro chain name tn hnone
    unfold loadNominalMethod orMissingFallback
    rw [hnone]
    rfl
  · intro chain name tn f hf
    unfold loadNominalMethod orMissingFallback
    rw [hf]
    rfl
  · intro own proto g hnone
    simp only [getOwnOrInheritedPropertyDescriptor, hnone]
  · intro own proto g d hd
    simp only [getOwnOrInheritedPropertyDescriptor, hd]
  · intro chain g tn d hok hget
    refine ⟨?_, rfl⟩
    unfold loadNominalGetter
    rw [hok]
    show Except.ok (orMissingFallback d.get tn) = _
    rw [hget]
    rfl
  · intro chain g tn hnone
    unfold loadNominalGetter loadNominalSetter loadNominalGetterStatic
      loadNominalSetterStatic
    rw [hwalk chain g hnone]
    exact ⟨rfl, rfl, rfl, rfl⟩
  · intro chain name tn f hf
    unfold loadNominalMethodStatic bindOrFallback
    rw [hf]
    rfl
  · intro chain name tn hnone
    unfold loadNominalMethodStatic bindOrFallback
    rw [hnone]
  · intro chain g tn d hok
    refine ⟨?_, ?_, ?_, ?_⟩
    · intro f hf
      unfold loadNominalGetterStatic
      rw [hok]
      show bindOrFallback d.get tn = _
      rw [hf]
      rfl
    · intro hget
      unfold loadNominalGetterStatic
      rw [hok]
      show bindOrFallback d.get tn = _
      rw [hget]
      rfl
    · intro f hf
      unfold loadNominalSetterStatic
      rw [hok]
      show bindOrFallback d.set tn = _
      rw [hf]
      rfl
    · intro hset
      unfold loadNominalSetterStatic
      rw [hok]
      show bindOrFallback d.set tn = _
      rw [hset]
      rfl

/-- Witness for the amended C7: a missing instance method raises at call
time naming the target; an inherited getter descriptor is found one
prototype up; an instance descriptor present without a getter raises at
call time; an entirely absent descriptor raises at load time naming the id;
a resolved static method binds at load; a missing static method and a
static getter descriptor without the accessor fault with the bind TypeError
at load. -/
theorem claim_C7_import_target_witness :
    invokeTarget (loadNominalMethod [[("other", 3)]] "m" "A.prototype.m") =
      Except.error "wasm-bindgen: A.prototype.m does not exist" ∧
    getOwnOrInheritedPropertyDescriptor
      [[], [("g", PropDesc.mk (some 9) none)]] "g" =
      Except.ok (PropDesc.mk (some 9) none) ∧
    loadNominalGetter [[("g", PropDesc.mk none (some 4))]] "g" "A.prototype.g" =
      Except.ok (ImportTarget.throwMissing "A.prototype.g") ∧
    loadNominalGetter [[], []] "g" "A.prototype.g" =
      Except.error "descriptor for id=\x27g\x27 not found" ∧
    loadNominalMethodStatic [[("m", 5)]] "m" "A.m.bind(A)" =
      Except.ok (ImportTarget.real 5) ∧
    loadNominalMethodStatic [[]] "m" "A.m.bind(A)" =
      Except.error bindTypeError ∧
    loadNominalGetterStatic [[("g", PropDesc.mk none (some 4))]] "g" "A.g" =
      Except.error bindTypeError := by
  refine ⟨claim_C7_import_target.1 [[("other", 3)]] "m" "A.prototype.m" rfl,
    ?_, ?_, ?_, ?_, ?_, ?_⟩
  · have h := claim_C7_import_target.2.2.1 ([] : List (String × PropDesc))
      [[("g", PropDesc.mk (some 9) none)]] "g" rfl
    rw [h]
    exact claim_C7_import_target.2.2.2.1 [("g", PropDesc.mk (some 9) none)] [] "g"
      (PropDesc.mk (some 9) none) rfl
  · exact (claim_C7_import_target.2.2.2.2.1 [[("g", PropDesc.mk none (some 4))]]
      "g" "A.prototype.g" (PropDesc.mk none (some 4)) rfl rfl).1
  · exact (claim_C7_import_target.2.2.2.2.2.1 [[], []] "g" "A.prototype.g"
      (by intro m hm; simp at hm; subst hm; rfl)).1
  · exact claim_C7_import_target.2.2.2.2.2.2.1 [[("m", 5)]] "m" "A.m.bind(A)" 5 rfl
  · exact claim_C7_import_target.2.2.2.2.2.2.2.1 [[]] "m" "A.m.bind(A)" rfl
  · exact (claim_C7_import_target.2.2.2.2.2.2.2.2
      [[("g", PropDesc.mk none (some 4))]] "g" "A.g"
      (PropDesc.mk none (some 4)) rfl).2.1 rfl

theorem countCtors_cons (cls : String) (e : ClassExport) (rest : List ClassExport) :
    countCtors cls (e :: rest) =
      (if e.class_name = cls ∧ e.is_constructor = true then 1 else 0) +
        countCtors cls rest := by
  by_cases hp : e.class_name = cls ∧ e.is_constructor = true
  · rw [if_pos hp]
    unfold countCtors
    rw [List.filter_cons_of_pos (by simp [hp.1, hp.2])]
    simp [Nat.add_comm]
  · rw [if_neg hp]
    unfold countCtors
    rw [List.filter_cons_of_neg (by
      simp only [Bool.and_eq_true, beq_iff_eq]
      intro hcon
      exact hp ⟨hcon.1, hcon.2⟩)]
    simp

theorem alookup_cons_self {κ α : Type} [DecidableEq κ] (k : κ) (v : α)
    (l : List (κ × α)) : alookup k ((k, v) :: l) = some v := by
  simp [alookup]

theorem alookup_cons_ne {κ α : Type} [DecidableEq κ] (k k2 : κ) (v : α)
    (l : List (κ × α)) (h : ¬ k = k2) : alookup k ((k2, v) :: l) = alookup k l := by
  simp only [alookup, if_neg h]

/-- Processing an export list in which every class has at most one
constructor (and none whose flag is already set) succeeds. -/
theorem runClassExports_ok (exports : List ClassExport)
    (classes : List (String × Bool))
    (h : ∀ cls, countCtors cls exports ≤ 1 ∧
      ((alookup cls classes).getD false = true → countCtors cls exports = 0)) :
    ∃ final, runClassExports classes exports = Except.ok final := by
  induction exports generalizing classes with
  | nil => exact ⟨classes, rfl⟩
  | cons e rest ih =>
    by_cases hc : e.is_constructor = true
    · have hflag : (alookup e.class_name classes).getD false = false := by
        by_cases hf : (alookup e.class_name classes).getD false = true
        · have h0 := (h e.class_name).2 hf
          rw [countCtors_cons, if_pos ⟨rfl, hc⟩] at h0
          omega
        · simpa using hf
      have hstep : registerClassExport classes e =
          Except.ok ((e.class_name, true) :: classes) := by
        simp only [registerClassExport]
        rw [hflag, if_pos hc, if_neg (by simp)]
      have hrun : runClassExports classes (e :: rest) =
          runClassExports ((e.class_name, true) :: classes) rest := by
        simp only [runClassExports, hstep]
      rw [hrun]
      apply ih
      intro cls
      have hcls := h cls
      rw [countCtors_cons] at hcls
      by_cases heq : e.class_name = cls
      · subst heq
        rw [if_pos ⟨rfl, hc⟩] at hcls
        constructor
        · omega
        · intro _
          omega
      · rw [if_neg (by simp [heq])] at hcls
        rw [alookup_cons_ne cls e.class_name true classes (fun hh => heq hh.symm)]
        simpa using hcls
    · have hstep : registerClassExport classes e =
          Except.ok ((e.class_name, (alookup e.class_name classes).getD false) ::
            classes) := by
        simp only [registerClassExport]
        rw [if_neg hc]
      have hrun : runClassExports classes (e :: rest) =
          runClassExports ((e.class_name, (alookup e.class_name classes).getD false) ::
            classes) rest := by
        simp only [runClassExports, hstep]
      rw [hrun]
      apply ih
      intro cls
      have hcls := h cls
      rw [countCtors_cons, if_neg (by simp [hc])] at hcls
      simp only [Nat.zero_add] at hcls
      by_cases hkeq : cls = e.class_name
      · subst hkeq
        rw [alookup_cons_self]
        simpa using hcls
      · rw [alookup_cons_ne cls e.class_name _ classes hkeq]
        exact hcls

/-- Processing an export list that holds two constructors for some class —
or one constructor for a class whose flag is already set — aborts with the
duplicate-constructor error naming one of the offending constructors. -/
theorem runClassExports_error (exports : List ClassExport)
    (classes : List (String × Bool)) (cls : String)
    (h : 2 ≤ countCtors cls exports ∨
      (1 ≤ countCtors cls exports ∧ (alookup cls classes).getD false = true)) :
    ∃ e2 ∈ exports, e2.is_constructor = true ∧
      runClassExports classes exports =
        Except.error ("found duplicate constructor `" ++ e2.fn_name ++ "`") := by
  induction exports generalizing classes with
  | nil =>
    exfalso
    simp only [countCtors, List.filter_nil, List.length_nil] at h
    omega
  | cons e rest ih =>
    by_cases hc : e.is_constructor = true
    · by_cases hflag : (alookup e.class_name classes).getD false = true
      · refine ⟨e, List.mem_cons_self _ _, hc, ?_⟩
        have hstep : registerClassExport classes e =
            Except.error ("found duplicate constructor `" ++ e.fn_name ++ "`") := by
          simp only [registerClassExport]
          rw [hflag, if_pos hc, if_pos rfl]
        simp only [runClassExports, hstep]
      · have hflag2 : (alookup e.class_name classes).getD false = false := by
          simpa using hflag
        have hstep : registerClassExport classes e =
            Except.ok ((e.class_name, true) :: classes) := by
          simp only [registerClassExport]
          rw [hflag2, if_pos hc, if_neg (by simp)]
        have hrun : runClassExports classes (e :: rest) =
            runClassExports ((e.class_name, true) :: classes) rest := by
          simp only [runClassExports, hstep]
        have hnext : 2 ≤ countCtors cls rest ∨
            (1 ≤ countCtors cls rest ∧
              (alookup cls ((e.class_name, true) :: classes)).getD false = true) := by
          rw [countCtors_cons] at h
          by_cases heq : e.class_name = cls
          · subst heq
            rw [if_pos ⟨rfl, hc⟩] at h
            right
            refine ⟨?_, by rw [alookup_cons_self]; rfl⟩
            rcases h with h | ⟨h, hf⟩
            · omega
            · rw [hf] at hflag2
              cases hflag2
          · rw [if_neg (by simp [heq])] at h
            simp only [Nat.zero_add] at h
            rcases h with h | ⟨h1, h2⟩
            · exact Or.inl h
            · right
              exact ⟨h1, by
                rw [alookup_cons_ne cls e.class_name true classes
                  (fun hh => heq hh.symm)]
                exact h2⟩
        obtain ⟨e2, hmem, hc2, herr⟩ := ih ((e.class_name, true) :: classes) hnext
        exact ⟨e2, List.mem_cons_of_mem _ hmem, hc2, by rw [hrun]; exact herr⟩
    · have hstep : registerClassExport classes e =
          Except.ok ((e.class_name, (alookup e.class_name classes).getD false) ::
            classes) := by
        simp only [registerClassExport]
        rw [if_neg hc]
      have hrun : runClassExports classes (e :: rest) =
          runClassExports ((e.class_name, (alookup e.class_name classes).getD false) ::
            classes) rest := by
        simp only [runClassExports, hstep]
      have hnext : 2 ≤ countCtors cls rest ∨
          (1 ≤ countCtors cls rest ∧
            (alookup cls ((e.class_name, (alookup e.class_name classes).getD false) ::
              classes)).getD false = true) := by
        rw [countCtors_cons, if_neg (by simp [hc])] at h
        simp only [Nat.zero_add] at h
        rcases h with h | ⟨h1, h2⟩
        · exact Or.inl h
        · right
          refine ⟨h1, ?_⟩
          by_cases hkeq : cls = e.class_name
          · subst hkeq
            rw [alookup_cons_self]
            simpa using h2
          · rw [alookup_cons_ne cls e.class_name _ classes hkeq]
            exact h2
      obtain ⟨e2, hmem, hc2, herr⟩ := ih _ hnext
      exact ⟨e2, List.mem_cons_of_mem _ hmem, hc2, by rw [hrun]; exact herr⟩

/-- Claim C8: a run whose class-export list declares two constructors for
the same class aborts with an error naming a duplicate constructor (the
`Except.error` result of the run carries no generated output); a run in
which every class has at most one constructor export never triggers the
duplicate-constructor error. -/
theorem claim_C8_duplicate_constructor (exports : List ClassExport) :
    ((∃ cls, 2 ≤ countCtors cls exports) →
      ∃ e2 ∈ exports, e2.is_constructor = true ∧
        runClassExports [] exports =
          Except.error ("found duplicate constructor `" ++ e2.fn_name ++ "`")) ∧
    ((∀ cls, countCtors cls exports ≤ 1) →
      ∃ final, runClassExports [] exports = Except.ok final) := by
  constructor
  · rintro ⟨cls, hcls⟩
    exact runClassExports_error exports [] cls (Or.inl hcls)
  · intro hall
    exact runClassExports_ok exports []
      (fun cls => ⟨hall cls, fun hf => by simp [alookup] at hf⟩)

/-- Witness for C8: two constructors for class `Foo` abort the run; one
constructor plus a method succeed. -/
theorem claim_C8_duplicate_constructor_witness :
    (∃ e2 ∈ [ClassExport.mk "Foo" "new" true, ClassExport.mk "Foo" "new2" true],
      e2.is_constructor = true ∧
      runClassExports [] [ClassExport.mk "Foo" "new" true,
        ClassExport.mk "Foo" "new2" true] =
        Except.error ("found duplicate constructor `" ++ e2.fn_name ++ "`")) ∧
    (∃ final, runClassExports []
      [ClassExport.mk "Foo" "new" true, ClassExport.mk "Foo" "m" false] =
        Except.ok final) := by
  constructor
  · exact (claim_C8_duplicate_constructor _).1 ⟨"Foo", by decide⟩
  · apply (claim_C8_duplicate_constructor _).2
    intro cls
    unfold countCtors
    rcases hb : ("Foo" == cls) with _ | _ <;>
      simp [List.filter_cons, hb]

/-! ### Decimal printing facts for the generated alias suffixes -/

theorem toDigitsCore_eq (fuel n : Nat) (ds : List Char) (h : n < fuel) :
    Nat.toDigitsCore 10 fuel n ds = digitsOf n ++ ds := by
  induction fuel generalizing n ds with
  | zero => omega
  | succ fuel ih =>
    show (if n / 10 = 0 then Nat.digitChar (n % 10) :: ds
      else Nat.toDigitsCore 10 fuel (n / 10) (Nat.digitChar (n % 10) :: ds)) =
      digitsOf n ++ ds
    by_cases h10 : n / 10 = 0
    · rw [if_pos h10]
      have hn : n < 10 := by omega
      rw [digitsOf.eq_def, if_pos hn, Nat.mod_eq_of_lt hn]
      rfl
    · rw [if_neg h10]
      have hn : ¬ n < 10 := by
        intro hlt
        exact h10 (Nat.div_eq_of_lt hlt)
      have hpos : 0 < n := by omega
      have hrec : n / 10 < fuel := by
        have := Nat.div_lt_self hpos (by norm_num : 1 < 10)
        omega
      rw [ih (n / 10) (Nat.digitChar (n % 10) :: ds) hrec]
      conv_rhs => rw [digitsOf.eq_def]
      rw [if_neg hn, List.append_assoc]
      rfl

theorem natRepr_eq_digitsOf (n : Nat) : Nat.repr n = (digitsOf n).asString := by
  show (Nat.toDigitsCore 10 (n + 1) n []).asString = _
  rw [toDigitsCore_eq (n + 1) n [] (Nat.lt_succ_self n), List.append_nil]

theorem valOf_append_singleton (l : List Char) (c : Char) :
    valOf (l ++ [c]) = 10 * valOf l + digitVal c := by
  unfold valOf
  rw [List.foldl_append]
  rfl

theorem digitVal_digitChar (d : Nat) (h : d < 10) :
    digitVal (Nat.digitChar d) = d := by
  interval_cases d <;> decide

theorem valOf_digitsOf (n : Nat) : valOf (digitsOf n) = n := by
  induction n using Nat.strong_induction_on with
  | _ n ih =>
    by_cases hn : n < 10
    · rw [digitsOf.eq_def, if_pos hn]
      show 10 * 0 + digitVal (Nat.digitChar n) = n
      rw [digitVal_digitChar n hn]
      omega
    · rw [digitsOf.eq_def, if_neg hn]
      have hpos : 0 < n := by omega
      rw [valOf_append_singleton, ih (n / 10) (Nat.div_lt_self hpos (by norm_num)),
        digitVal_digitChar (n % 10) (Nat.mod_lt n (by norm_num))]
      omega

theorem natRepr_inj {m n : Nat} (h : Nat.repr m = Nat.repr n) : m = n := by
  rw [natRepr_eq_digitsOf, natRepr_eq_digitsOf] at h
  have hl : digitsOf m = digitsOf n := congrArg String.data h
  have hv := congrArg valOf hl
  rwa [valOf_digitsOf, valOf_digitsOf] at hv

theorem digitsOf_ne_nil (n : Nat) : digitsOf n ≠ [] := by
  rw [digitsOf.eq_def]
  split <;> simp

theorem natRepr_length_pos (n : Nat) : 0 < (Nat.repr n).length := by
  rw [natRepr_eq_digitsOf]
  show 0 < (digitsOf n).length
  exact List.length_pos.mpr (digitsOf_ne_nil n)

/-- Aliases generated for the same base identifier at different counter
values are distinct strings. -/
theorem generate_identifier_inj (name : String) (u1 u2 : List (String × Nat))
    (hne : (alookup name u1).getD 0 ≠ (alookup name u2).getD 0) :
    (generate_identifier name u1).1 ≠ (generate_identifier name u2).1 := by
  intro heq
  simp only [generate_identifier] at heq
  by_cases h1 : (alookup name u1).getD 0 + 1 = 1
  · rw [if_pos h1] at heq
    by_cases h2 : (alookup name u2).getD 0 + 1 = 1
    · exact hne (by omega)
    · rw [if_neg h2] at heq
      have hlen := congrArg String.length heq
      rw [String.length_append] at hlen
      have := natRepr_length_pos ((alookup name u2).getD 0 + 1)
      omega
  · rw [if_neg h1] at heq
    by_cases h2 : (alookup name u2).getD 0 + 1 = 1
    · rw [if_pos h2] at heq
      have hlen := congrArg String.length heq
      rw [String.length_append] at hlen
      have := natRepr_length_pos ((alookup name u1).getD 0 + 1)
      omega
    · rw [if_neg h2] at heq
      have hdata := congrArg String.data heq
      rw [String.data_append, String.data_append] at hdata
      have hrd := List.append_cancel_left hdata
      have hrepr : Nat.repr ((alookup name u1).getD 0 + 1) =
          Nat.repr ((alookup name u2).getD 0 + 1) := by
        cases hu1 : Nat.repr ((alookup name u1).getD 0 + 1)
        cases hu2 : Nat.repr ((alookup name u2).getD 0 + 1)
        rw [hu1, hu2] at hrd
        exact congrArg String.mk hrd
      exact hne (by have := natRepr_inj hrepr; omega)

/-- Counterexample to claim C5 as stated: returned aliases are NOT pairwise
distinct across the run.  Resolving `foo` from module `a` yields alias
`foo`; resolving `foo` from module `b` yields the suffixed alias `foo2`; but
then a first-time resolution of the distinct identifier `foo2` (from module
`c`) also yields `foo2` — the counter is keyed by the base identifier only,
so a suffixed alias can collide with a later identifier that textually
equals base-plus-counter. -/
theorem claim_C5_counterexample :
    (import_name (some "b") none "foo"
      (import_name (some "a") none "foo" emptyImportCtx).2).1 = "foo2" ∧
    (import_name (some "c") none "foo2"
      (import_name (some "b") none "foo"
        (import_name (some "a") none "foo" emptyImportCtx).2).2).1 = "foo2" :=
  ⟨rfl, rfl⟩

/-- Claim C5 (amended): during one run, re-resolving the same identifier
from the same origin returns the same alias and leaves the context — in
particular the emitted import declarations — unchanged, and a recorded
(origin, identifier) alias survives any other resolutions; the first
resolution of a given origin-and-identifier emits exactly one import
declaration when the origin is a named module; the first resolution of an
identifier returns the identifier itself as alias, and a later resolution of
the same identifier from a different origin returns the identifier suffixed
with the bumped per-identifier counter; aliases generated for the same base
identifier at different counter values are pairwise distinct — but a
suffixed alias may still collide with a later first resolution of a distinct
identifier that textually equals base-plus-counter. -/
theorem claim_C5_import_name :
    (∀ (m : Option String) (ns : Option String) (item : String) (ctx : ImportCtx)
      (a : String) (ctx2 : ImportCtx),
      import_name m ns item ctx = (a, ctx2) →
      import_name m ns item ctx2 = (a, ctx2)) ∧
    (∀ (key : Option String × String) (a : String) (ctx : ImportCtx)
      (m2 ns2 : Option String) (item2 : String),
      alookup key ctx.imported_names = some a →
      alookup key ((import_name m2 ns2 item2 ctx).2).imported_names = some a) ∧
    (∀ (mod : String) (ns : Option String) (item : String) (ctx : ImportCtx),
      alookup (some mod, ns.getD item) ctx.imported_names = none →
      ((import_name (some mod) ns item ctx).2).imports =
        ctx.imports ++ [(some mod, ns.getD item,
          (generate_identifier (ns.getD item) ctx.imported_identifiers).1)]) ∧
    (∀ (m ns : Option String) (item : String) (ctx : ImportCtx) (a : String),
      alookup (m, ns.getD item) ctx.imported_names = some a →
      (import_name m ns item ctx).2 = ctx) ∧
    (∀ (m : Option String) (item : String) (ctx : ImportCtx),
      alookup (m, item) ctx.imported_names = none →
      alookup item ctx.imported_identifiers = none →
      (import_name m none item ctx).1 = item) ∧
    (∀ (m : Option String) (item : String) (ctx : ImportCtx) (k : Nat),
      alookup (m, item) ctx.imported_names = none →
      alookup item ctx.imported_identifiers = some k → 0 < k →
      (import_name m none item ctx).1 = item ++ Nat.repr (k + 1)) ∧
    (∀ (name : String) (u1 u2 : List (String × Nat)),
      (alookup name u1).getD 0 ≠ (alookup name u2).getD 0 →
      (generate_identifier name u1).1 ≠ (generate_identifier name u2).1) := by
  refine ⟨?_, ?_, ?_, ?_, ?_, ?_, generate_identifier_inj⟩
  · intro m ns item ctx a ctx2 heq
    rcases hk : alookup (m, ns.getD item) ctx.imported_names with _ | a0
    · simp only [import_name, hk] at heq
      injection heq with h1 h2
      subst h1
      subst h2
      simp only [import_name, alookup_cons_self]
    · simp only [import_name, hk] at heq
      injection heq with h1 h2
      subst h1
      subst h2
      simp only [import_name, hk]
  · intro key a ctx m2 ns2 item2 hk
    rcases hk2 : alookup (m2, ns2.getD item2) ctx.imported_names with _ | a2
    · simp only [import_name, hk2]
      have hne : ¬ key = (m2, ns2.getD item2) := by
        intro heq
        rw [heq, hk2] at hk
        cases hk
      rw [alookup_cons_ne _ _ _ _ hne]
      exact hk
    · simp only [import_name, hk2]
      exact hk
  · intro mod ns item ctx hk
    simp only [import_name, hk]
  · intro m ns item ctx a hk
    simp only [import_name, hk]
  · intro m item ctx hk hid
    simp only [import_name, Option.getD_none, hk, generate_identifier, hid]
    simp
  · intro m item ctx k hk hid hkpos
    simp only [import_name, Option.getD_none, hk, generate_identifier, hid,
      Option.getD_some]
    rw [if_neg (by omega)]

/-- Witness for the amended C5 on a concrete run: re-resolving
(`a`, `foo`) is stable and emits nothing new; the first resolution emitted
exactly one declaration and returned `foo` itself; resolving `foo` from
module `b` returns the suffixed `foo2`; and counters 1 and 2 give distinct
aliases for base `foo`. -/
theorem claim_C5_import_name_witness :
    import_name (some "a") none "foo"
      (import_name (some "a") none "foo" emptyImportCtx).2 =
      ("foo", (import_name (some "a") none "foo" emptyImportCtx).2) ∧
    ((import_name (some "a") none "foo" emptyImportCtx).2).imports =
      [(some "a", "foo", "foo")] ∧
    (import_name (some "a") none "foo" emptyImportCtx).1 = "foo" ∧
    (import_name (some "b") none "foo"
      (import_name (some "a") none "foo" emptyImportCtx).2).1 =
      "foo" ++ Nat.repr 2 ∧
    (generate_identifier "foo" []).1 ≠ (generate_identifier "foo" [("foo", 1)]).1 := by
  refine ⟨claim_C5_import_name.1 (some "a") none "foo" emptyImportCtx "foo"
      (import_name (some "a") none "foo" emptyImportCtx).2 rfl,
    ?_, claim_C5_import_name.2.2.2.2.1 (some "a") "foo" emptyImportCtx rfl rfl,
    claim_C5_import_name.2.2.2.2.2.1 (some "b") "foo"
      (import_name (some "a") none "foo" emptyImportCtx).2 1 rfl rfl Nat.one_pos,
    claim_C5_import_name.2.2.2.2.2.2 "foo" [] [("foo", 1)] (by decide)⟩
  have h := claim_C5_import_name.2.2.1 "a" none "foo" emptyImportCtx rfl
  simpa [emptyImportCtx] using h
